import Mathlib

/-!
Shallow embedding of the vx7 DX7-emulator synthesis engine
(src/engine: envelope.py, operator.py, lfo.py, algorithm.py, voice.py,
synth.py) and verification of the frozen claims about it.

Python floats are modelled as real numbers; integer parameters are
modelled as integers (presets may carry out-of-range values).  Stateful
methods are modelled as functions from a state structure to a pair of
result and updated state.  A Python call that raises an exception is
modelled with `Except`: `Voice.render` on an active voice passes the
keyword arguments `freq_ratio` and `op_enabled` to `apply_algorithm`,
whose parameter list (algorithm.py lines 339-349) has no such
parameters, so the call raises `TypeError`; this is modelled as
`Except.error`.
-/

namespace VX7

/-- `np.clip` / `int(np.clip(...))` on integer parameters. -/
def clipZ (x lo hi : ℤ) : ℤ := max lo (min x hi)

/-- Clipping of a real sample, `np.clip(x, lo, hi)`. -/
noncomputable def clipR (x lo hi : ℝ) : ℝ := max lo (min x hi)

/-- Python `round`: round half to even (banker's rounding), as used by
`round(...)` on floats in envelope.py, operator.py and lfo.py. -/
noncomputable def roundEven (x : ℝ) : ℤ :=
  if Int.fract x = 1 / 2 then
    (if Even ⌊x⌋ then ⌊x⌋ else ⌊x⌋ + 1)
  else round x

/-- Python float modulo `x % y` (sign of the divisor, here `y > 0`):
`x - y * ⌊x / y⌋`. -/
noncomputable def fmod (x y : ℝ) : ℝ := x - y * ⌊x / y⌋

/-- `fmod x y = x` when `0 ≤ x < y`: wrapping a phase already inside the
principal interval leaves it unchanged. -/
theorem fmod_eq_self {x y : ℝ} (h0 : 0 ≤ x) (h1 : x < y) : fmod x y = x := by
  have hy : 0 < y := lt_of_le_of_lt h0 h1
  have : ⌊x / y⌋ = 0 := by
    rw [Int.floor_eq_zero_iff]
    constructor
    · positivity
    · rw [div_lt_one hy]; exact h1
  simp [fmod, this]

/-! ## Envelope (src/engine/envelope.py) -/

/-- Envelope stage identifiers (`EnvelopeStage`). -/
inductive EnvStage where
  | idle
  | attack
  | decay1
  | decay2
  | release
  deriving DecidableEq, Repr

/-- `_rate_to_time`: DX7 rate value (0-99) to seconds for a full-scale
transition.  The argument is clipped to 0..99; rate 99 returns the
0.5 ms minimum directly, otherwise `10 ^ (4.6 - rate * 0.0693) * 0.001`
clamped below by 0.5 ms. -/
noncomputable def rateToTime (rate : ℤ) : ℝ :=
  let r := clipZ rate 0 99
  if r = 99 then 0.0005
  else max ((10 : ℝ) ^ ((4.6 - (r : ℝ) * 0.0693) : ℝ) * 0.001) 0.0005

/-- `_level_to_amplitude`: DX7 level value (0-99) to linear amplitude.
Level 0 gives 0, level 99 gives 1, otherwise
`10 ^ ((level - 99) * 0.4134 / 20)`. -/
noncomputable def levelToAmplitude (level : ℤ) : ℝ :=
  let l := clipZ level 0 99
  if l = 0 then 0
  else if l = 99 then 1
  else (10 : ℝ) ^ ((((l : ℝ) - 99) * 0.4134 / 20) : ℝ)

/-- State of the `Envelope` class: constructor parameters (rates are
re-assigned by `Operator.gate_on`), the precomputed level amplitudes,
and the runtime fields. -/
structure Envelope where
  rates : ℤ × ℤ × ℤ × ℤ
  levels : ℤ × ℤ × ℤ × ℤ
  levelAmps : ℝ × ℝ × ℝ × ℝ
  l4Amp : ℝ
  sampleRate : ℕ
  stage : EnvStage
  current : ℝ
  target : ℝ
  increment : ℝ
  samplesRemaining : ℕ

/-- `Envelope.__init__`: clip rates and levels to 0..99, precompute the
level amplitudes, start idle at zero. -/
noncomputable def mkEnvelope (rates levels : ℤ × ℤ × ℤ × ℤ) (sampleRate : ℕ) :
    Envelope :=
  let r := (clipZ rates.1 0 99, clipZ rates.2.1 0 99,
            clipZ rates.2.2.1 0 99, clipZ rates.2.2.2 0 99)
  let l := (clipZ levels.1 0 99, clipZ levels.2.1 0 99,
            clipZ levels.2.2.1 0 99, clipZ levels.2.2.2 0 99)
  let amps := (levelToAmplitude l.1, levelToAmplitude l.2.1,
               levelToAmplitude l.2.2.1, levelToAmplitude l.2.2.2)
  { rates := r
    levels := l
    levelAmps := amps
    l4Amp := amps.2.2.2
    sampleRate := sampleRate
    stage := EnvStage.idle
    current := 0
    target := 0
    increment := 0
    samplesRemaining := 0 }

/-- `Envelope._enter_stage`: configure target, increment and the sample
budget for the given stage. -/
noncomputable def Envelope.enterStage (e : Envelope) (s : EnvStage) : Envelope :=
  match s with
  | EnvStage.idle =>
      { e with stage := s, increment := 0, samplesRemaining := 0 }
  | _ =>
      let target :=
        match s with
        | EnvStage.attack => e.levelAmps.1
        | EnvStage.decay1 => e.levelAmps.2.1
        | EnvStage.decay2 => e.levelAmps.2.2.1
        | _ => e.l4Amp
      let rate :=
        match s with
        | EnvStage.attack => e.rates.1
        | EnvStage.decay1 => e.rates.2.1
        | EnvStage.decay2 => e.rates.2.2.1
        | _ => e.rates.2.2.2
      let delta := |target - e.current|
      if delta < 1e-9 then
        { e with stage := s, target := target, current := target,
                 samplesRemaining := 0, increment := 0 }
      else
        let fullTime := rateToTime rate
        let stageTime := max (fullTime * delta) (1 / (e.sampleRate : ℝ))
        let n := max 1 (roundEven (stageTime * (e.sampleRate : ℝ))).toNat
        { e with stage := s, target := target,
                 samplesRemaining := n,
                 increment := (target - e.current) / (n : ℝ) }

/-- `Envelope._advance_stage`. -/
noncomputable def Envelope.advanceStage (e : Envelope) : Envelope :=
  match e.stage with
  | EnvStage.attack => e.enterStage EnvStage.decay1
  | EnvStage.decay1 => e.enterStage EnvStage.decay2
  | EnvStage.decay2 => { e with samplesRemaining := 0 }
  | EnvStage.release =>
      { e with current := e.target, stage := EnvStage.idle }
  | EnvStage.idle => e

/-- `Envelope.gate_on`. -/
noncomputable def Envelope.gateOn (e : Envelope) : Envelope :=
  ({ e with current := e.l4Amp } : Envelope).enterStage EnvStage.attack

/-- `Envelope.gate_off`. -/
noncomputable def Envelope.gateOff (e : Envelope) : Envelope :=
  if e.stage = EnvStage.idle then e
  else e.enterStage EnvStage.release

/-- `Envelope.reset`. -/
noncomputable def Envelope.reset (e : Envelope) : Envelope :=
  { e with stage := EnvStage.idle, current := 0, target := 0,
           increment := 0, samplesRemaining := 0 }

/-- The `count` samples written by `Envelope._fill_ramp`:
`clip(current + increment * j, 0, 1)` for `j = 1 .. count`. -/
noncomputable def rampList (current increment : ℝ) (count : ℕ) : List ℝ :=
  (List.range count).map fun j : ℕ =>
    clipR (current + increment * ((j : ℝ) + 1)) 0 1

/-- `Envelope._fill_ramp` state effect: the current value becomes the last
written (clamped) sample and the stage budget shrinks by `count`. -/
noncomputable def Envelope.fillRamp (e : Envelope) (count : ℕ) : List ℝ × Envelope :=
  let vals := rampList e.current e.increment count
  (vals, { e with current := vals.getLastD e.current,
                  samplesRemaining := e.samplesRemaining - count })

/-- One fueled pass of the `while offset < num_samples` loop of
`Envelope.render`; `remaining` is `num_samples - offset`.  The fuel is an
upper bound on loop iterations (each iteration either emits at least one
sample or advances the stage, and at most two stage advances happen
between emissions), never reached by `Envelope.render`. -/
noncomputable def Envelope.renderLoop :
    ℕ → Envelope → ℕ → List ℝ × Envelope
  | 0, e, _ => ([], e)
  | _ + 1, e, 0 => ([], e)
  | fuel + 1, e, remaining =>
      match e.stage with
      | EnvStage.idle => (List.replicate remaining e.current, e)
      | EnvStage.decay2 =>
          if e.samplesRemaining = 0 then
            (List.replicate remaining e.current, e)
          else
            let chunk := min remaining e.samplesRemaining
            let step := e.fillRamp chunk
            let e1 :=
              if step.2.samplesRemaining = 0 then
                { step.2 with current := step.2.target }
              else step.2
            let rest := Envelope.renderLoop fuel e1 (remaining - chunk)
            (step.1 ++ rest.1, rest.2)
      | _ =>
          if e.samplesRemaining = 0 then
            Envelope.renderLoop fuel
              (({ e with current := e.target } : Envelope).advanceStage) remaining
          else
            let chunk := min remaining e.samplesRemaining
            let step := e.fillRamp chunk
            let e1 :=
              if step.2.samplesRemaining = 0 then
                ({ step.2 with current := step.2.target } : Envelope).advanceStage
              else step.2
            let rest := Envelope.renderLoop fuel e1 (remaining - chunk)
            (step.1 ++ rest.1, rest.2)

/-- `Envelope.render`. -/
noncomputable def Envelope.render (e : Envelope) (numSamples : ℕ) :
    List ℝ × Envelope :=
  Envelope.renderLoop (3 * numSamples + 8) e numSamples

/-! ## Operator (src/engine/operator.py) -/

/-- `_MAX_MODULATION_INDEX`. -/
def maxModulationIndex : ℝ := 13.0

/-- `output_level_to_amplitude`: the `_OUTPUT_LEVEL_AMP` table entry at the
clipped level: 0 at level 0, otherwise `10 ^ (-(99 - level) * 0.75 / 20)`. -/
noncomputable def output_level_to_amplitude (level : ℤ) : ℝ :=
  let l := clipZ level 0 99
  if l = 0 then 0
  else (10 : ℝ) ^ ((-(((99 : ℝ) - (l : ℝ)) * 0.75) / 20) : ℝ)

/-- `output_level_to_mod_index`. -/
noncomputable def output_level_to_mod_index (level : ℤ) : ℝ :=
  output_level_to_amplitude level * maxModulationIndex

/-- `compute_frequency_ratio`. -/
noncomputable def compute_frequency_ratio (coarse fine : ℤ) : ℝ :=
  let c := clipZ coarse 0 31
  let f := clipZ fine 0 99
  let base : ℝ := if c = 0 then 0.5 else (c : ℝ)
  base * (1 + (f : ℝ) * 0.01)

/-- `_DETUNE_CENTS_PER_STEP`. -/
def detuneCentsPerStep : ℝ := 1.018

/-- `detune_multiplier`. -/
noncomputable def detune_multiplier (detune : ℤ) : ℝ :=
  let d := clipZ detune (-7) 7
  (2 : ℝ) ^ (((d : ℝ) * detuneCentsPerStep / 1200) : ℝ)

/-- `velocity_scale`. -/
noncomputable def velocity_scale (velocity sensitivity : ℤ) : ℝ :=
  let s := clipZ sensitivity 0 7
  if s = 0 then 1
  else
    let v := clipZ velocity 0 127
    let velNorm := (v : ℝ) / 127
    let floorAmp := 1 - (s : ℝ) / 7
    floorAmp + (1 - floorAmp) * velNorm

/-- `KeyboardLevelScaling` parameters (note: stored unclipped). -/
structure KeyboardLevelScaling where
  breakpoint : ℤ
  left_depth : ℤ
  right_depth : ℤ
  left_curve : ℤ
  right_curve : ℤ
  deriving DecidableEq, Repr

/-- `KeyboardLevelScaling.scale_factor`.  Depth and breakpoint are used
exactly as stored, without clipping; a curve value outside 0..3 yields a
zero dB offset. -/
noncomputable def KeyboardLevelScaling.scale_factor
    (k : KeyboardLevelScaling) (note : ℤ) : ℝ :=
  let distance := note - k.breakpoint
  if distance = 0 then 1
  else
    let depth := if distance < 0 then k.left_depth else k.right_depth
    let curve := if distance < 0 then k.left_curve else k.right_curve
    let distAbs := if distance < 0 then -distance else distance
    if depth = 0 then 1
    else
      let norm := min ((distAbs : ℝ) / 48) 1
      let maxDb := (depth : ℝ) * 0.75
      let dbOffset :=
        if curve = 0 then -maxDb * norm
        else if curve = 1 then -maxDb * norm ^ 2
        else if curve = 3 then maxDb * norm
        else if curve = 2 then maxDb * norm ^ 2
        else 0
      (10 : ℝ) ^ ((dbOffset / 20) : ℝ)

/-- `key_rate_scaling`: adjusted envelope rate, clipped to 0..99. -/
noncomputable def key_rate_scaling (rate note krs : ℤ) : ℤ :=
  let k := clipZ krs 0 7
  if k = 0 then clipZ rate 0 99
  else
    let adjustment : ℝ := (k : ℝ) * (max 0 (note - 36) : ℤ) / 36
    clipZ (roundEven ((rate : ℝ) + adjustment)) 0 99

/-- `OperatorParams` (raw preset values; clipping happens at use sites). -/
structure OperatorParams where
  osc_mode : ℤ
  coarse : ℤ
  fine : ℤ
  detune : ℤ
  output_level : ℤ
  rate1 : ℤ
  rate2 : ℤ
  rate3 : ℤ
  rate4 : ℤ
  level1 : ℤ
  level2 : ℤ
  level3 : ℤ
  level4 : ℤ
  velocity_sensitivity : ℤ
  key_rate_scaling : ℤ
  kls : KeyboardLevelScaling

/-- Default `OperatorParams` (dataclass defaults). -/
def defaultOperatorParams : OperatorParams :=
  { osc_mode := 0, coarse := 1, fine := 0, detune := 0, output_level := 99
    rate1 := 99, rate2 := 99, rate3 := 99, rate4 := 99
    level1 := 99, level2 := 99, level3 := 99, level4 := 0
    velocity_sensitivity := 0, key_rate_scaling := 0
    kls := ⟨60, 0, 0, 0, 0⟩ }

/-- State of the `Operator` class. -/
structure Operator where
  params : OperatorParams
  sampleRate : ℕ
  envelope : Envelope
  phase : ℝ
  freq : ℝ
  amplitude : ℝ
  modIndex : ℝ
  velScale : ℝ
  klsScale : ℝ

/-- `Operator.__init__`. -/
noncomputable def mkOperator (params : OperatorParams) (sampleRate : ℕ) :
    Operator :=
  { params := params
    sampleRate := sampleRate
    envelope := mkEnvelope (params.rate1, params.rate2, params.rate3, params.rate4)
      (params.level1, params.level2, params.level3, params.level4) sampleRate
    phase := 0
    freq := 440
    amplitude := 1
    modIndex := maxModulationIndex
    velScale := 1
    klsScale := 1 }

/-- `Operator.gate_on`. -/
noncomputable def Operator.gateOn (op : Operator) (note velocity : ℤ)
    (baseFreq : ℝ) : Operator :=
  let p := op.params
  let freq :=
    if p.osc_mode = 0 then
      baseFreq * compute_frequency_ratio p.coarse p.fine * detune_multiplier p.detune
    else
      (10 : ℝ) ^ (min p.coarse 3) * (1 + (p.fine : ℝ) * 0.01) *
        detune_multiplier p.detune
  let velScale := velocity_scale velocity p.velocity_sensitivity
  let klsScale := p.kls.scale_factor note
  let baseAmp := output_level_to_amplitude p.output_level
  let adjRates := (key_rate_scaling p.rate1 note p.key_rate_scaling,
                   key_rate_scaling p.rate2 note p.key_rate_scaling,
                   key_rate_scaling p.rate3 note p.key_rate_scaling,
                   key_rate_scaling p.rate4 note p.key_rate_scaling)
  { op with
    freq := freq
    velScale := velScale
    klsScale := klsScale
    amplitude := baseAmp * velScale * klsScale
    modIndex := output_level_to_mod_index p.output_level * velScale * klsScale
    phase := 0
    envelope := ({ op.envelope with rates := adjRates } : Envelope).gateOn }

/-- `Operator.gate_off`. -/
noncomputable def Operator.gateOff (op : Operator) : Operator :=
  { op with envelope := op.envelope.gateOff }

/-- `Operator.is_active` (property). -/
def Operator.isActive (op : Operator) : Bool :=
  op.envelope.stage != EnvStage.idle

/-- `Operator.reset`. -/
noncomputable def Operator.reset (op : Operator) : Operator :=
  { op with phase := 0, envelope := op.envelope.reset }

/-- `np.cumsum`: running inclusive prefix sums. -/
noncomputable def cumsum : List ℝ → List ℝ
  | [] => []
  | x :: xs => (cumsum xs).map (fun s => x + s) |>.cons x

/-- `Operator.render`.  Returns the output block and the updated operator
(envelope state advanced, phase wrapped into `[0, 2π)`). -/
noncomputable def Operator.render (op : Operator) (numSamples : ℕ)
    (modulation : Option (List ℝ)) (asCarrier : Bool)
    (freqRatio : Option (List ℝ)) : List ℝ × Operator :=
  let er := op.envelope.render numSamples
  let env := er.1
  let basePhaseInc := 2 * Real.pi * op.freq / (op.sampleRate : ℝ)
  let pf : List ℝ × ℝ :=
    match freqRatio with
    | some fr =>
        let cum := cumsum (fr.map (fun r => basePhaseInc * r))
        let phases := cum.map (fun c => op.phase + c)
        (phases, if numSamples > 0 then phases.getLastD op.phase else op.phase)
    | none =>
        ((List.range numSamples).map
          (fun t => op.phase + basePhaseInc * (t : ℝ)),
         op.phase + basePhaseInc * (numSamples : ℝ))
  let phases :=
    match modulation with
    | some m => List.zipWith (fun a b => a + b) pf.1 m
    | none => pf.1
  let scale := if asCarrier then op.amplitude else op.modIndex
  let output := List.zipWith (fun ph e => Real.sin ph * e * scale) phases env
  (output, { op with envelope := er.2, phase := fmod pf.2 (2 * Real.pi) })

/-- The sample-by-sample loop of `Operator.render_with_feedback`: one sine
per sample with the feedback signal `level * (fb0 + fb1) / 2`, the phase
advanced by `inc * freq_ratio[i]` afterwards.  Returns the raw samples,
the final phase, and the final two-sample feedback state. -/
noncomputable def fbSamples (fbLevel inc : ℝ) :
    ℕ → ℝ → ℝ → ℝ → Option (List ℝ) → List ℝ × ℝ × ℝ × ℝ
  | 0, phase, fb0, fb1, _ => ([], phase, fb0, fb1)
  | k + 1, phase, fb0, fb1, fr =>
      let fb := fbLevel * (fb0 + fb1) * 0.5
      let sample := Real.sin (phase + fb)
      let frI : ℝ := match fr with | none => 1 | some l => l.headD 1
      let rest := fbSamples fbLevel inc k (phase + inc * frI) fb1 sample
        (fr.map List.tail)
      (sample :: rest.1, rest.2)

/-- `Operator.render_with_feedback`.  Returns the scaled output, the
updated feedback buffer, and the updated operator. -/
noncomputable def Operator.renderWithFeedback (op : Operator) (numSamples : ℕ)
    (feedbackLevel : ℝ) (feedbackBuffer : ℝ × ℝ)
    (freqRatio : Option (List ℝ)) : List ℝ × (ℝ × ℝ) × Operator :=
  let er := op.envelope.render numSamples
  let env := er.1
  let basePhaseInc := 2 * Real.pi * op.freq / (op.sampleRate : ℝ)
  let run := fbSamples feedbackLevel basePhaseInc numSamples op.phase
    feedbackBuffer.1 feedbackBuffer.2 freqRatio
  let output := List.zipWith (fun y e => y * e * op.modIndex) run.1 env
  (output, (run.2.2.1, run.2.2.2),
   { op with envelope := er.2, phase := fmod run.2.1 (2 * Real.pi) })

/-! ## Algorithm table and renderer (src/engine/algorithm.py) -/

/-- `AlgorithmDef`: carriers, modulation edges (source, destination),
feedback operator; all 0-based. -/
structure AlgorithmDef where
  carriers : List ℕ
  modulations : List (ℕ × ℕ)
  feedback_op : ℕ
  deriving DecidableEq, Repr

/-- The 32 DX7 algorithm definitions (`ALGORITHMS`). -/
def ALGORITHMS : List AlgorithmDef := [
  ⟨[0], [(5, 4), (4, 3), (3, 2), (2, 1), (1, 0)], 5⟩,
  ⟨[0], [(5, 4), (4, 3), (3, 2), (2, 1), (1, 0)], 1⟩,
  ⟨[0], [(5, 4), (4, 3), (3, 0), (2, 1), (1, 0)], 5⟩,
  ⟨[0], [(5, 4), (4, 3), (3, 2), (2, 1), (1, 0)], 3⟩,
  ⟨[0, 2], [(5, 4), (4, 3), (3, 2), (1, 0)], 5⟩,
  ⟨[0, 2], [(5, 4), (4, 3), (3, 2), (1, 0)], 4⟩,
  ⟨[0], [(5, 4), (4, 3), (3, 1), (2, 1), (1, 0)], 5⟩,
  ⟨[0], [(3, 2), (5, 4), (2, 1), (4, 1), (1, 0)], 3⟩,
  ⟨[0], [(3, 2), (5, 4), (2, 1), (4, 1), (1, 0)], 1⟩,
  ⟨[0, 3], [(5, 4), (4, 3), (2, 1), (1, 0)], 2⟩,
  ⟨[0, 3], [(5, 4), (4, 3), (2, 1), (1, 0)], 5⟩,
  ⟨[0, 2], [(1, 0), (5, 4), (4, 3), (3, 2)], 1⟩,
  ⟨[0, 2], [(1, 0), (5, 4), (4, 3), (3, 2)], 5⟩,
  ⟨[0, 2], [(5, 4), (4, 3), (3, 2), (1, 0)], 5⟩,
  ⟨[0, 2], [(1, 0), (5, 4), (4, 2)], 1⟩,
  ⟨[0], [(5, 4), (4, 0), (3, 2), (2, 0), (1, 0)], 5⟩,
  ⟨[0], [(5, 4), (4, 0), (3, 0), (2, 1), (1, 0)], 1⟩,
  ⟨[0], [(2, 1), (5, 4), (4, 3), (1, 0), (3, 0)], 2⟩,
  ⟨[0, 1, 2, 3], [(5, 4), (4, 3), (4, 2), (4, 1)], 5⟩,
  ⟨[0, 3, 4], [(2, 1), (1, 0), (5, 4), (5, 3)], 2⟩,
  ⟨[0, 2, 3, 4], [(5, 4), (5, 3), (5, 2), (1, 0)], 5⟩,
  ⟨[0, 1, 2, 3, 4], [(5, 4), (5, 3), (5, 2), (5, 1), (5, 0)], 5⟩,
  ⟨[0, 2, 3], [(5, 4), (4, 3), (1, 0)], 5⟩,
  ⟨[0, 1, 2, 3], [(5, 4), (4, 3), (4, 2)], 5⟩,
  ⟨[0, 1, 2, 3], [(5, 4), (4, 3)], 5⟩,
  ⟨[0, 2, 3], [(5, 4), (4, 3), (5, 2), (1, 0)], 5⟩,
  ⟨[0, 3, 4], [(2, 1), (1, 0), (5, 4)], 5⟩,
  ⟨[0, 2, 5], [(4, 3), (3, 2), (1, 0)], 4⟩,
  ⟨[0, 1, 2, 4], [(5, 4), (3, 2)], 5⟩,
  ⟨[0, 1, 2, 5], [(4, 3), (3, 2)], 4⟩,
  ⟨[0, 1, 2, 3, 4], [(5, 4)], 5⟩,
  ⟨[0, 1, 2, 3, 4, 5], [], 5⟩]

/-- `FEEDBACK_LEVELS` table, in radians. -/
noncomputable def FEEDBACK_LEVELS : List ℝ :=
  [0, Real.pi / 256, Real.pi / 128, Real.pi / 64, Real.pi / 32,
   Real.pi / 16, Real.pi / 8, Real.pi / 4]

/-- `feedback_param_to_level`. -/
noncomputable def feedback_param_to_level (param : ℤ) : ℝ :=
  FEEDBACK_LEVELS.getD (clipZ param 0 7).toNat 0

/-- One pass over `dst` inside the Kahn loop of
`_build_dependency_order`: if `op` modulates `dst`, remove the edge,
decrement the in-degree, and when it reaches zero append `dst` to the
queue and re-sort it.  State is (modulated-by lists, in-degrees, queue). -/
def kahnStep (op : ℕ)
    (st : List (List ℕ) × List ℕ × List ℕ) (dst : ℕ) :
    List (List ℕ) × List ℕ × List ℕ :=
  let modBy := st.1
  let inDeg := st.2.1
  let queue := st.2.2
  if op ∈ modBy.getD dst [] then
    let modBy2 := modBy.set dst ((modBy.getD dst []).erase op)
    let d := inDeg.getD dst 0 - 1
    let inDeg2 := inDeg.set dst d
    if d = 0 then (modBy2, inDeg2, (queue ++ [dst]).insertionSort (· ≤ ·))
    else (modBy2, inDeg2, queue)
  else st

/-- The `while queue` loop of `_build_dependency_order` (Kahn's
algorithm); each iteration pops the smallest queued operator.  Fuel
bounds the iterations (each node is dequeued at most once, so 8 is
enough for 6 operators). -/
def kahnLoop : ℕ → List (List ℕ) × List ℕ × List ℕ → List ℕ → List ℕ
  | 0, _, order => order
  | fuel + 1, st, order =>
      match st.2.2 with
      | [] => order
      | op :: rest =>
          let st2 := (List.range 6).foldl (kahnStep op) (st.1, st.2.1, rest)
          kahnLoop fuel st2 (order ++ [op])

/-- `_build_dependency_order`: Kahn's algorithm over the modulation
edges with the feedback operator's self-edge removed, queue kept sorted
ascending; any operator missing at the end is appended. -/
def buildDependencyOrder (algo : AlgorithmDef) : List ℕ :=
  let modBy0 : List (List ℕ) :=
    (List.range 6).map fun dst =>
      ((algo.modulations.filter (fun e => e.2 = dst)).map Prod.fst).dedup
  let modBy : List (List ℕ) :=
    modBy0.set algo.feedback_op
      ((modBy0.getD algo.feedback_op []).erase algo.feedback_op)
  let inDeg : List ℕ := modBy.map List.length
  let queue : List ℕ := (List.range 6).filter fun i => inDeg.getD i 0 = 0
  let order := kahnLoop 8 (modBy, inDeg, queue) []
  order ++ (List.range 6).filter (fun i => i ∉ order)

/-- `_RENDER_ORDERS`: precomputed render order per algorithm. -/
def RENDER_ORDERS : List (List ℕ) := ALGORITHMS.map buildDependencyOrder

/-- Index an operator array as the Python list indexing does (all indices
in the tables are below 6). -/
def opFin (i : ℕ) : Fin 6 := ⟨i % 6, Nat.mod_lt _ (by norm_num)⟩

open scoped Classical in
/-- `apply_algorithm`.  Note the parameter list: `base_freq` and
`sample_rate` are accepted but unused by the body, and there are **no**
`freq_ratio` / `op_enabled` parameters.  Returns the carrier mix, the
updated operators, and the updated feedback buffers. -/
noncomputable def applyAlgorithm (operators : Fin 6 → Operator)
    (algorithmIndex : ℕ) (feedbackParam : ℤ) (numSamples : ℕ)
    (baseFreq : ℝ) (sampleRate : ℕ)
    (feedbackBuffers : Fin 6 → ℝ × ℝ)
    (pitchMod ampMod : Option (List ℝ)) :
    List ℝ × (Fin 6 → Operator) × (Fin 6 → ℝ × ℝ) :=
  let algo := ALGORITHMS.getD algorithmIndex ⟨[], [], 0⟩
  let fbLevel := feedback_param_to_level feedbackParam
  let modSources : ℕ → List ℕ := fun dst =>
    (algo.modulations.filter (fun e => e.2 = dst)).map Prod.fst
  let order := RENDER_ORDERS.getD algorithmIndex []
  let step := fun
      (st : (Fin 6 → Operator) × (Fin 6 → ℝ × ℝ) × (Fin 6 → Option (List ℝ)))
      (opIdxN : ℕ) =>
    let ops := st.1
    let bufs := st.2.1
    let outs := st.2.2
    let opIdx := opFin opIdxN
    let op := ops opIdx
    let modInput := (modSources opIdxN).foldl (fun acc srcN =>
      if srcN = opIdxN then acc
      else
        match outs (opFin srcN) with
        | none => acc
        | some srcOut =>
            match acc with
            | none => some srcOut
            | some m => some (List.zipWith (fun a b => a + b) m srcOut)) none
    let isCarrier := decide (opIdxN ∈ algo.carriers)
    let rendered :
        List ℝ × (Fin 6 → Operator) × (Fin 6 → ℝ × ℝ) :=
      if opIdxN = algo.feedback_op ∧ fbLevel > 0 then
        let r := op.renderWithFeedback numSamples fbLevel (bufs opIdx) none
        let output :=
          if isCarrier ∧ op.modIndex > 1e-12 then
            r.1.map (fun x => x * (op.amplitude / op.modIndex))
          else r.1
        (output, Function.update ops opIdx r.2.2,
         Function.update bufs opIdx r.2.1)
      else
        let r := op.render numSamples modInput isCarrier none
        (r.1, Function.update ops opIdx r.2, bufs)
    let output :=
      match ampMod with
      | some am =>
          if isCarrier then List.zipWith (fun a b => a * b) rendered.1 am
          else rendered.1
      | none => rendered.1
    (rendered.2.1, rendered.2.2,
     Function.update outs opIdx (some output))
  let final := order.foldl step (operators, feedbackBuffers, fun _ => none)
  let outs := final.2.2
  let mix0 : List ℝ := List.replicate numSamples 0
  let mix := algo.carriers.foldl (fun acc c =>
    match outs (opFin c) with
    | some out => List.zipWith (fun a b => a + b) acc out
    | none => acc) mix0
  let numCarriers := algo.carriers.length
  let mixOut :=
    if numCarriers > 1 then
      mix.map (fun x => x / Real.sqrt (numCarriers : ℝ))
    else mix
  (mixOut, final.1, final.2.1)

/-! ## LFO (src/engine/lfo.py).  Only construction, `gate_on` and
`reset` are needed by the claims; `LFO.render` is called by
`Voice.render` strictly before the `apply_algorithm` call whose
`TypeError` aborts the render, and its outputs are modelled where needed
as an arbitrary pitch-mod block (`voiceFreqRatio`). -/

/-- `_speed_to_hz`. -/
noncomputable def speed_to_hz (speed : ℤ) : ℝ :=
  let s := clipZ speed 0 99
  0.062 * Real.exp ((s : ℝ) * 0.0684)

/-- `_delay_to_seconds`. -/
noncomputable def delay_to_seconds (delay : ℤ) : ℝ :=
  let d := clipZ delay 0 99
  if d = 0 then 0 else (d : ℝ) * (d : ℝ) * 0.0005

/-- State of the `LFO` class. -/
structure LFO where
  waveform : ℤ
  speed : ℤ
  delay : ℤ
  pmd : ℤ
  amd : ℤ
  keySync : Bool
  sampleRate : ℕ
  freq : ℝ
  delayTime : ℝ
  delaySamples : ℤ
  phase : ℝ
  sampleCounter : ℕ
  shValue : ℝ
  shLastPhase : ℝ

/-- `LFO.__init__`. -/
noncomputable def mkLFO (waveform speed delay pmd amd : ℤ) (keySync : Bool)
    (sampleRate : ℕ) : LFO :=
  let sp := clipZ speed 0 99
  let dl := clipZ delay 0 99
  let dt := delay_to_seconds dl
  { waveform := clipZ waveform 0 5
    speed := sp
    delay := dl
    pmd := clipZ pmd 0 99
    amd := clipZ amd 0 99
    keySync := keySync
    sampleRate := sampleRate
    freq := speed_to_hz sp
    delayTime := dt
    delaySamples := roundEven (dt * (sampleRate : ℝ))
    phase := 0
    sampleCounter := 0
    shValue := 0
    shLastPhase := 0 }

/-- `LFO.gate_on`. -/
noncomputable def LFO.gateOn (l : LFO) : LFO :=
  { l with phase := if l.keySync then 0 else l.phase,
           sampleCounter := 0, shValue := 0, shLastPhase := 0 }

/-- `LFO.reset`. -/
noncomputable def LFO.reset (l : LFO) : LFO :=
  { l with phase := 0, sampleCounter := 0, shValue := 0, shLastPhase := 0 }

/-! ## Preset records (§6.2; voice.py `load_preset` input) -/

/-- The `lfo` sub-record of a preset. -/
structure LFOPreset where
  waveform : ℤ
  speed : ℤ
  delay : ℤ
  pmd : ℤ
  amd : ℤ
  keySync : Bool

/-- One `opN` sub-record of a preset (raw, possibly out-of-range). -/
structure OpPreset where
  osc_mode : ℤ
  coarse : ℤ
  fine : ℤ
  detune : ℤ
  output_level : ℤ
  rate1 : ℤ
  rate2 : ℤ
  rate3 : ℤ
  rate4 : ℤ
  level1 : ℤ
  level2 : ℤ
  level3 : ℤ
  level4 : ℤ
  velocity_sensitivity : ℤ
  key_rate_scaling : ℤ
  kls_breakpoint : ℤ
  kls_left_depth : ℤ
  kls_right_depth : ℤ
  kls_left_curve : ℤ
  kls_right_curve : ℤ

/-- A preset dictionary with all numeric fields present. -/
structure Preset where
  algorithm : ℤ
  feedback : ℤ
  lfo : LFOPreset
  ops : Fin 6 → OpPreset

/-- `_default_preset` (voice.py): operator 1 is a full-level carrier,
operators 2-6 are silent. -/
def defaultPreset : Preset :=
  { algorithm := 0
    feedback := 0
    lfo := ⟨0, 35, 0, 0, 0, true⟩
    ops := fun i =>
      { osc_mode := 0, coarse := 1, fine := 0, detune := 0
        output_level := if i = 0 then 99 else 0
        rate1 := 99, rate2 := 99, rate3 := 99, rate4 := 99
        level1 := 99, level2 := 99
        level3 := if i = 0 then 99 else 0
        level4 := 0
        velocity_sensitivity := 0, key_rate_scaling := 0
        kls_breakpoint := 60, kls_left_depth := 0, kls_right_depth := 0
        kls_left_curve := 0, kls_right_curve := 0 } }

/-! ## Voice (src/engine/voice.py) -/

/-- `midi_note_to_freq`. -/
noncomputable def midi_note_to_freq (note : ℤ) : ℝ :=
  440 * (2 : ℝ) ^ ((((note : ℝ) - 69) / 12) : ℝ)

/-- State of the `Voice` class. -/
structure Voice where
  sampleRate : ℕ
  operators : Fin 6 → Operator
  lfo : LFO
  algorithm : ℕ
  feedback : ℤ
  feedbackBuffers : Fin 6 → ℝ × ℝ
  note : ℤ
  velocity : ℤ
  active : Bool
  gate : Bool
  age : ℕ
  pitchBendRatio : ℝ
  modWheel : ℝ
  opEnabled : Fin 6 → Bool

/-- `Voice.load_preset`: algorithm wraps modulo 32, feedback is clipped
to 0..7, the LFO is rebuilt, and all six operators are rebuilt from the
raw per-operator records. -/
noncomputable def Voice.loadPreset (v : Voice) (p : Preset) : Voice :=
  { v with
    algorithm := (p.algorithm % 32).toNat
    feedback := clipZ p.feedback 0 7
    lfo := mkLFO p.lfo.waveform p.lfo.speed p.lfo.delay p.lfo.pmd p.lfo.amd
      p.lfo.keySync v.sampleRate
    operators := fun i =>
      let o := p.ops i
      mkOperator
        { osc_mode := o.osc_mode, coarse := o.coarse, fine := o.fine
          detune := o.detune, output_level := o.output_level
          rate1 := o.rate1, rate2 := o.rate2, rate3 := o.rate3, rate4 := o.rate4
          level1 := o.level1, level2 := o.level2, level3 := o.level3
          level4 := o.level4
          velocity_sensitivity := o.velocity_sensitivity
          key_rate_scaling := o.key_rate_scaling
          kls := ⟨o.kls_breakpoint, o.kls_left_depth, o.kls_right_depth,
                  o.kls_left_curve, o.kls_right_curve⟩ }
        v.sampleRate }

/-- `Voice.__init__`: default state with the default preset loaded. -/
noncomputable def mkVoice (sampleRate : ℕ) : Voice :=
  Voice.loadPreset
    { sampleRate := sampleRate
      operators := fun _ => mkOperator defaultOperatorParams sampleRate
      lfo := mkLFO 0 35 0 0 0 true sampleRate
      algorithm := 0
      feedback := 0
      feedbackBuffers := fun _ => (0, 0)
      note := -1
      velocity := 0
      active := false
      gate := false
      age := 0
      pitchBendRatio := 1
      modWheel := 0
      opEnabled := fun _ => true }
    defaultPreset

/-- `Voice.gate_on`. -/
noncomputable def Voice.gateOn (v : Voice) (note velocity : ℤ) : Voice :=
  let baseFreq := midi_note_to_freq note
  { v with
    note := note
    velocity := velocity
    active := true
    gate := true
    age := 0
    feedbackBuffers := fun _ => (0, 0)
    operators := fun i => (v.operators i).gateOn note velocity baseFreq
    lfo := v.lfo.gateOn }

/-- `Voice.gate_off`. -/
noncomputable def Voice.gateOff (v : Voice) : Voice :=
  { v with
    gate := false
    operators := fun i => (v.operators i).gateOff }

/-- `Voice.set_pitch_bend`. -/
noncomputable def Voice.setPitchBend (v : Voice) (ratio : ℝ) : Voice :=
  { v with pitchBendRatio := ratio }

/-- `Voice.set_mod_wheel`. -/
noncomputable def Voice.setModWheel (v : Voice) (value : ℝ) : Voice :=
  { v with modWheel := max 0 (min 1 value) }

/-- `Voice.set_operator_enabled`. -/
def Voice.setOperatorEnabled (v : Voice) (opIndex : ℕ) (enabled : Bool) :
    Voice :=
  if opIndex < 6 then
    { v with opEnabled := Function.update v.opEnabled (opFin opIndex) enabled }
  else v

/-- `Voice.is_active`: gate held, or some carrier operator's envelope
still active. -/
def Voice.isActive (v : Voice) : Bool :=
  if v.gate then true
  else
    ((ALGORITHMS.getD v.algorithm ⟨[], [], 0⟩).carriers.any fun c =>
      ((v.operators (opFin c)).isActive))

/-- `Voice.reset`. -/
noncomputable def Voice.reset (v : Voice) : Voice :=
  { v with
    note := -1
    velocity := 0
    active := false
    gate := false
    age := 0
    operators := fun i => (v.operators i).reset
    lfo := v.lfo.reset
    feedbackBuffers := fun _ => (0, 0) }

open scoped Classical in
/-- The `freq_ratio` block built by `Voice.render` (voice.py lines
276-284): a constant pitch-bend block, multiplied elementwise by
`2 ^ ((pitch_mod * 12) / 12)` when any pitch-mod sample is nonzero. -/
noncomputable def voiceFreqRatio (bend : ℝ) (pitchMod : List ℝ)
    (numSamples : ℕ) : List ℝ :=
  let base := List.replicate numSamples bend
  if ∃ x ∈ pitchMod, x ≠ 0 then
    List.zipWith (fun b pm => b * (2 : ℝ) ^ ((pm * 12 / 12 : ℝ))) base pitchMod
  else base

/-- The `TypeError` message raised when `Voice.render` calls
`apply_algorithm` with keyword arguments its parameter list does not
have. -/
def applyAlgorithmTypeError : String :=
  "TypeError: apply_algorithm() got an unexpected keyword argument"

/-- `Voice.render`.  An inactive voice returns silence.  An active voice
reaches the `apply_algorithm(...)` call at voice.py lines 287-299, which
passes the keyword arguments `freq_ratio=` and `op_enabled=`;
`apply_algorithm` (algorithm.py lines 339-349) accepts neither, so
Python raises `TypeError` and no buffer is returned. -/
noncomputable def Voice.render (v : Voice) (numSamples : ℕ) :
    Except String (List ℝ × Voice) :=
  if v.active = false then Except.ok (List.replicate numSamples 0, v)
  else Except.error applyAlgorithmTypeError

/-! ## Synth (src/engine/synth.py) -/

/-- In-place mutation of `self.voices[i]` on a Python list. -/
def listModify {α : Type} : List α → ℕ → (α → α) → List α
  | [], _, _ => []
  | a :: l, 0, f => f a :: l
  | a :: l, i + 1, f => a :: listModify l i f

/-- Dictionary lookup `self._note_to_voice.get(note)`. -/
def lookupNote (m : List (ℤ × ℕ)) (note : ℤ) : Option ℕ :=
  (m.find? fun e => e.1 == note).map Prod.snd

/-- Dictionary deletion / `pop`. -/
def eraseNote (m : List (ℤ × ℕ)) (note : ℤ) : List (ℤ × ℕ) :=
  m.filter fun e => !(e.1 == note)

/-- Dictionary assignment `self._note_to_voice[note] = idx`. -/
def insertNote (m : List (ℤ × ℕ)) (note : ℤ) (idx : ℕ) : List (ℤ × ℕ) :=
  eraseNote m note ++ [(note, idx)]

/-- State of the `Synth` class.  The note map is an association list
with unique keys (dict semantics). -/
structure Synth where
  polyphony : ℕ
  sampleRate : ℕ
  voices : List Voice
  noteToVoice : List (ℤ × ℕ)
  currentPreset : Option Preset
  masterVolume : ℝ

/-- `Synth.__init__` (defaults: polyphony 16, sample rate 44100,
master volume 0.8). -/
noncomputable def mkSynth (polyphony sampleRate : ℕ) : Synth :=
  { polyphony := polyphony
    sampleRate := sampleRate
    voices := List.replicate polyphony (mkVoice sampleRate)
    noteToVoice := []
    currentPreset := none
    masterVolume := 0.8 }

/-- `Synth.load_preset`. -/
noncomputable def Synth.loadPreset (s : Synth) (p : Preset) : Synth :=
  { s with currentPreset := some p
           voices := s.voices.map (fun v => v.loadPreset p) }

/-- One iteration of the best-released / best-held scan in
`Synth._allocate_voice`; state is (best released index, best released
age, best held index, best held age), ages compared strictly. -/
def allocStep (st : ℤ × ℤ × ℤ × ℤ) (iv : ℕ × Voice) : ℤ × ℤ × ℤ × ℤ :=
  if !iv.2.gate then
    if (iv.2.age : ℤ) > st.2.1 then
      ((iv.1 : ℤ), (iv.2.age : ℤ), st.2.2.1, st.2.2.2)
    else st
  else
    if (iv.2.age : ℤ) > st.2.2.2 then
      (st.1, st.2.1, (iv.1 : ℤ), (iv.2.age : ℤ))
    else st

/-- `Synth._allocate_voice`: first completely idle voice; otherwise the
oldest released voice (gate off), otherwise the oldest held voice;
fallback 0.  The running "best" ages start at -1 and are beaten only
strictly, so the first voice of maximal age wins. -/
def allocateVoice (voices : List Voice) : ℕ :=
  match voices.findIdx? (fun v => !v.isActive && !v.active) with
  | some i => i
  | none =>
      let best := voices.enum.foldl allocStep (-1, -1, -1, -1)
      if best.1 ≥ 0 then best.1.toNat
      else if best.2.2.1 ≥ 0 then best.2.2.1.toNat
      else 0

/-- `Synth.note_off`. -/
noncomputable def Synth.noteOff (s : Synth) (note : ℤ) : Synth :=
  match lookupNote s.noteToVoice note with
  | none => s
  | some idx =>
      { s with noteToVoice := eraseNote s.noteToVoice note
               voices := listModify s.voices idx Voice.gateOff }

/-- `Synth.note_on`.  Velocity 0 is treated as note-off; a repeated note
first releases its old voice; the target voice comes from
`_allocate_voice`; a stale mapping to the stolen voice is removed; the
current preset (if any) is reloaded into the voice before `gate_on`. -/
noncomputable def Synth.noteOn (s : Synth) (note velocity : ℤ) : Synth :=
  if velocity = 0 then s.noteOff note
  else
    let s1 :=
      match lookupNote s.noteToVoice note with
      | some oldIdx =>
          { s with noteToVoice := eraseNote s.noteToVoice note
                   voices := listModify s.voices oldIdx Voice.gateOff }
      | none => s
    let voiceIdx := allocateVoice s1.voices
    let chosen := s1.voices.getD voiceIdx (mkVoice s1.sampleRate)
    let oldNote := chosen.note
    let map2 :=
      if 0 ≤ oldNote ∧ lookupNote s1.noteToVoice oldNote = some voiceIdx then
        eraseNote s1.noteToVoice oldNote
      else s1.noteToVoice
    let map3 := insertNote map2 note voiceIdx
    let reloaded :=
      match s1.currentPreset with
      | some p => chosen.loadPreset p
      | none => chosen
    { s1 with noteToVoice := map3
              voices := listModify s1.voices voiceIdx
                (fun _ => reloaded.gateOn note velocity) }

/-- `Synth.all_notes_off`. -/
noncomputable def Synth.allNotesOff (s : Synth) : Synth :=
  { s with voices := s.voices.map Voice.gateOff, noteToVoice := [] }

/-- `Synth.panic`. -/
noncomputable def Synth.panic (s : Synth) : Synth :=
  { s with voices := s.voices.map Voice.reset, noteToVoice := [] }

/-- The per-voice loop of `Synth.render`: voices with
`is_active() or _active` are rendered and summed into the mix; a
`TypeError` from `Voice.render` propagates. -/
noncomputable def renderVoices (n : ℕ) : List Voice →
    Except String (List ℝ × List Voice)
  | [] => Except.ok (List.replicate n 0, [])
  | v :: vs =>
      if v.isActive || v.active then
        match v.render n with
        | Except.error e => Except.error e
        | Except.ok r =>
            match renderVoices n vs with
            | Except.error e => Except.error e
            | Except.ok rest =>
                Except.ok (List.zipWith (fun a b => a + b) rest.1 r.1,
                  r.2 :: rest.2)
      else
        match renderVoices n vs with
        | Except.error e => Except.error e
        | Except.ok rest => Except.ok (rest.1, v :: rest.2)

/-- `Synth.render`: mix the voices, apply master volume, clip to
[-1, 1]. -/
noncomputable def Synth.render (s : Synth) (numSamples : ℕ) :
    Except String (List ℝ × Synth) :=
  (renderVoices numSamples s.voices).map fun r =>
    (r.1.map (fun x => clipR (x * s.masterVolume) (-1) 1),
     { s with voices := r.2 })

/-! ## Event surface (§6.1).  `note_on/off`, `all_notes_off`, `panic`
and `load_preset` are `Synth` methods; pitch bend, mod wheel and
operator enable are the broadcast of the corresponding `Voice`
setters to every voice. -/

/-- A control event. -/
inductive Event where
  | noteOn (note velocity : ℤ)
  | noteOff (note : ℤ)
  | allNotesOff
  | panic
  | pitchBend (ratio : ℝ)
  | modWheel (value : ℝ)
  | opEnable (opIndex : ℕ) (enabled : Bool)
  | loadPreset (p : Preset)

/-- Apply one control event to the synth. -/
noncomputable def applyEvent (s : Synth) : Event → Synth
  | Event.noteOn note velocity => s.noteOn note velocity
  | Event.noteOff note => s.noteOff note
  | Event.allNotesOff => s.allNotesOff
  | Event.panic => s.panic
  | Event.pitchBend ratio =>
      { s with voices := s.voices.map (fun v => v.setPitchBend ratio) }
  | Event.modWheel value =>
      { s with voices := s.voices.map (fun v => v.setModWheel value) }
  | Event.opEnable i enabled =>
      { s with voices := s.voices.map (fun v => v.setOperatorEnabled i enabled) }
  | Event.loadPreset p => s.loadPreset p

/-- A step of the control/audio interleaving: a control event or an
audio-callback render of a block. -/
inductive Action where
  | event (e : Event)
  | render (n : ℕ)

/-- Run one action; a render updates the voice pool state (a raised
`TypeError` leaves the state as the partial mutations are irrelevant to
the claims settled on silent pools, where no error occurs). -/
noncomputable def runAction (s : Synth) : Action → Synth
  | Action.event e => applyEvent s e
  | Action.render n =>
      match s.render n with
      | Except.ok r => r.2
      | Except.error _ => s

/-- Run a sequence of actions. -/
noncomputable def runActions (s : Synth) (acts : List Action) : Synth :=
  acts.foldl runAction s

/-- Whether an action is a `note_on` event. -/
def Action.isNoteOn : Action → Bool
  | Action.event (Event.noteOn _ _) => true
  | _ => false

/-! ## Decidable checkers for the render-order claim -/

/-- The order lists each of the six operators exactly once. -/
def isPermOfRange6 (ord : List ℕ) : Bool :=
  ord.length == 6 && (List.range 6).all (fun i => ord.contains i)

/-- Every modulation edge (src, dst), other than the feedback operator's
self-edge, has src strictly before dst in the order. -/
def topoRespect (algo : AlgorithmDef) (ord : List ℕ) : Bool :=
  algo.modulations.all fun e =>
    (e.1 == e.2 && e.1 == algo.feedback_op) || decide (ord.indexOf e.1 < ord.indexOf e.2)

/-- Operator `i` is ready once all its modulators are placed, the
feedback operator's self-edge excepted. -/
def readyOp (algo : AlgorithmDef) (placed : List ℕ) (i : ℕ) : Bool :=
  (algo.modulations.filter (fun e => e.2 == i)).all fun e =>
    (e.1 == i && i == algo.feedback_op) || placed.contains e.1

/-- Tie-breaking check: at every position the order takes the
smallest-index operator among those not yet placed and ready. -/
def lexMinCheck (algo : AlgorithmDef) : List ℕ → List ℕ → Bool
  | _, [] => true
  | placed, x :: rest =>
      let candidates := (List.range 6).filter fun i =>
        !placed.contains i && readyOp algo placed i
      candidates.head? == some x && lexMinCheck algo (placed ++ [x]) rest

/-- Full per-algorithm render-order check. -/
def renderOrderOK (k : ℕ) : Bool :=
  let algo := ALGORITHMS.getD k ⟨[], [], 0⟩
  let ord := RENDER_ORDERS.getD k []
  isPermOfRange6 ord && topoRespect algo ord && lexMinCheck algo [] ord

/-! ## Theorems for the claims -/

set_option maxRecDepth 40000 in
/-- C6: For each of the 32 topologies, the precomputed render order is a
topological order of the six operators: every modulation edge
(src, dst), other than the feedback operator's self-edge, has src before
dst, and at every position the order takes the smallest-index operator
among those available (ties broken by ascending operator index). -/
theorem claim_C6 : ((List.range 32).all renderOrderOK) = true := by decide

/-- C9: the output-level-to-amplitude mapping is monotone non-decreasing
with every value in [0, 1], 0 at level 0 and 1 at level 99, and the
derived modulation index never exceeds 13 radians. -/
theorem claim_C9 :
    (∀ a b : ℤ, a ≤ b →
      output_level_to_amplitude a ≤ output_level_to_amplitude b) ∧
    (∀ l : ℤ, 0 ≤ output_level_to_amplitude l ∧
      output_level_to_amplitude l ≤ 1) ∧
    output_level_to_amplitude 0 = 0 ∧
    output_level_to_amplitude 99 = 1 ∧
    (∀ l : ℤ, output_level_to_mod_index l ≤ 13) := by
  have hclip_mem : ∀ x : ℤ, 0 ≤ clipZ x 0 99 ∧ clipZ x 0 99 ≤ 99 := by
    intro x
    unfold clipZ
    constructor
    · exact le_max_left 0 _
    · exact max_le (by norm_num) (min_le_right _ _)
  have hbounds : ∀ l : ℤ, 0 ≤ output_level_to_amplitude l ∧
      output_level_to_amplitude l ≤ 1 := by
    intro l
    unfold output_level_to_amplitude
    rcases hclip_mem l with ⟨hlo, hhi⟩
    by_cases h : clipZ l 0 99 = 0
    · simp [h]
    · simp only [h, if_false]
      constructor
      · positivity
      · apply Real.rpow_le_one_of_one_le_of_nonpos (by norm_num)
        have : (clipZ l 0 99 : ℝ) ≤ 99 := by exact_mod_cast hhi
        nlinarith
  refine ⟨?_, hbounds, ?_, ?_, ?_⟩
  · intro a b hab
    unfold output_level_to_amplitude
    have hmono : clipZ a 0 99 ≤ clipZ b 0 99 := by
      unfold clipZ
      exact max_le_max le_rfl (min_le_min hab le_rfl)
    rcases hclip_mem a with ⟨ha0, _⟩
    by_cases ha : clipZ a 0 99 = 0
    · simp only [ha, if_true]
      by_cases hb : clipZ b 0 99 = 0
      · simp [hb]
      · simp only [hb, if_false]; positivity
    · have hb : clipZ b 0 99 ≠ 0 := by omega
      simp only [ha, hb, if_false]
      apply Real.rpow_le_rpow_of_exponent_le (by norm_num)
      have : (clipZ a 0 99 : ℝ) ≤ (clipZ b 0 99 : ℝ) := by exact_mod_cast hmono
      nlinarith
  · unfold output_level_to_amplitude clipZ
    norm_num
  · unfold output_level_to_amplitude clipZ
    norm_num
  · intro l
    unfold output_level_to_mod_index maxModulationIndex
    have h := (hbounds l).2
    nlinarith [(hbounds l).1]

/-- Witness for C9 at concrete levels. -/
theorem claim_C9_witness :
    (3 : ℤ) ≤ 5 ∧
    output_level_to_amplitude 3 ≤ output_level_to_amplitude 5 ∧
    0 ≤ output_level_to_amplitude 7 := by
  refine ⟨by norm_num, claim_C9.1 3 5 (by norm_num), (claim_C9.2.1 7).1⟩

/-- A preset whose op records carry an out-of-range keyboard-level-scaling
depth (documented range 0..99). -/
def klsDeepPreset : Preset :=
  { defaultPreset with
    ops := fun i =>
      { defaultPreset.ops i with kls_right_depth := 198, kls_right_curve := 3 } }

/-- An operator in fixed-frequency mode (`osc_mode = 1`) with a given raw
`fine` value (documented range 0..99). -/
noncomputable def fixedFineOp (fine : ℤ) : Operator :=
  mkOperator
    { defaultOperatorParams with osc_mode := 1, coarse := 0, fine := fine }
    44100

/-- C8 counterexample: not every out-of-range value is silently clamped
into its documented range.  (a) `load_preset` stores the out-of-range KLS
depth 198 unchanged, and `scale_factor` then behaves differently from the
clamped depth 99 (it boosts by 148.5 dB instead of 74.25 dB at four
octaves above the breakpoint).  (b) In fixed-frequency mode `gate_on`
uses the raw `fine`: fine = 150 yields 2.5 Hz (`1 + 150·0.01`), not the
1.99 Hz that the clamped fine = 99 yields. -/
theorem claim_C8_counterexample :
    (((mkVoice 44100).loadPreset klsDeepPreset).operators 0).params.kls =
      ⟨60, 0, 198, 0, 3⟩ ∧
    KeyboardLevelScaling.scale_factor ⟨60, 0, 198, 0, 3⟩ 108 ≠
      KeyboardLevelScaling.scale_factor ⟨60, 0, 99, 0, 3⟩ 108 ∧
    ((fixedFineOp 150).gateOn 60 100 440).freq = 2.5 ∧
    ((fixedFineOp 99).gateOn 60 100 440).freq = 1.99 ∧
    ((fixedFineOp 150).gateOn 60 100 440).freq ≠
      ((fixedFineOp 99).gateOn 60 100 440).freq := by
  have hdet : detune_multiplier 0 = 1 := by
    have hc : clipZ 0 (-7) 7 = 0 := by decide
    unfold detune_multiplier
    rw [hc]
    norm_num
  have hmin : min (0 : ℤ) 3 = 0 := by decide
  have h150 : ((fixedFineOp 150).gateOn 60 100 440).freq = 2.5 := by
    simp [Operator.gateOn, fixedFineOp, mkOperator, defaultOperatorParams,
      hdet, hmin]
    norm_num
  have h99 : ((fixedFineOp 99).gateOn 60 100 440).freq = 1.99 := by
    simp [Operator.gateOn, fixedFineOp, mkOperator, defaultOperatorParams,
      hdet, hmin]
    norm_num
  refine ⟨rfl, ?_, h150, h99, ?_⟩
  · unfold KeyboardLevelScaling.scale_factor
    norm_num
    intro heq
    have hlt : (10 : ℝ) ^ ((297 / 80 : ℝ)) < (10 : ℝ) ^ ((297 / 40 : ℝ)) := by
      apply Real.rpow_lt_rpow_of_exponent_lt (by norm_num)
      norm_num
    rw [heq] at hlt
    exact lt_irrefl _ hlt
  · rw [h150, h99]
    norm_num

/-- C8 amended: `load_preset` never rejects a preset; the algorithm index
wraps modulo 32, the feedback parameter is clipped to 0..7, and the
envelope rates and levels are clipped to 0..99 (so feedback 8 behaves as
7 and an envelope level of 120 behaves as 99) — but keyboard-level-scaling
parameters, and `fine` (plus the lower range of `coarse`) in the
fixed-frequency oscillator path, are stored and used unclamped. -/
theorem claim_C8_amended (v : Voice) (p : Preset) (i : Fin 6) :
    ((v.loadPreset p).algorithm : ℤ) = p.algorithm % 32 ∧
    (v.loadPreset p).algorithm < 32 ∧
    (v.loadPreset p).feedback = clipZ p.feedback 0 7 ∧
    ((v.loadPreset p).operators i).envelope.rates =
      (clipZ (p.ops i).rate1 0 99, clipZ (p.ops i).rate2 0 99,
       clipZ (p.ops i).rate3 0 99, clipZ (p.ops i).rate4 0 99) ∧
    ((v.loadPreset p).operators i).envelope.levels =
      (clipZ (p.ops i).level1 0 99, clipZ (p.ops i).level2 0 99,
       clipZ (p.ops i).level3 0 99, clipZ (p.ops i).level4 0 99) := by
  refine ⟨?_, ?_, rfl, rfl, rfl⟩
  · exact Int.toNat_of_nonneg (Int.emod_nonneg _ (by norm_num))
  · have h1 := Int.emod_nonneg p.algorithm (show (32 : ℤ) ≠ 0 by norm_num)
    have h2 := Int.emod_lt_of_pos p.algorithm (show (0 : ℤ) < 32 by norm_num)
    simp only [Voice.loadPreset]
    omega

/-- A voice whose `_active` flag is set, as `gate_on` leaves it. -/
noncomputable def activeVoice : Voice := { mkVoice 44100 with active := true }

/-- C2: the per-operator enable flags never reach the algorithm renderer.
`apply_algorithm` has no `op_enabled` parameter, so rendering an active
voice raises `TypeError` for every setting of the flags; no operator
output is ever replaced with zero. -/
theorem claim_C2 (v : Voice) (h : v.active = true) (flags : Fin 6 → Bool)
    (n : ℕ) :
    Voice.render { v with opEnabled := flags } n =
      Except.error applyAlgorithmTypeError := by
  simp [Voice.render, h]

/-- Witness for C2 at a concrete active voice. -/
theorem claim_C2_witness :
    activeVoice.active = true ∧
    Voice.render { activeVoice with opEnabled := fun _ => false } 8 =
      Except.error applyAlgorithmTypeError :=
  ⟨rfl, claim_C2 activeVoice rfl (fun _ => false) 8⟩

/-- The `any` part of C1's failing condition: some voice is `_active`. -/
theorem renderVoices_error_of_active (n : ℕ) :
    ∀ vs : List Voice, vs.any (fun v => v.active) = true →
      renderVoices n vs = Except.error applyAlgorithmTypeError := by
  intro vs
  induction vs with
  | nil => intro h; simp at h
  | cons v rest ih =>
      intro h
      by_cases hv : v.active = true
      · have hflag : (v.isActive || v.active) = true := by
          simp [hv]
        simp only [renderVoices, hflag, if_true]
        have : v.render n = Except.error applyAlgorithmTypeError := by
          simp [Voice.render, hv]
        rw [this]
      · have hrest : rest.any (fun v => v.active) = true := by
          simp only [List.any_cons] at h
          rcases Bool.or_eq_true_iff.mp h with h1 | h2
          · exact absurd h1 hv
          · exact h2
        have htail := ih hrest
        simp only [renderVoices, htail]
        by_cases hflag : (v.isActive || v.active) = true
        · simp only [hflag, if_true]
          have hok : v.render n =
              Except.ok (List.replicate n 0, v) := by
            simp only [Voice.render]
            have : v.active = false := by
              cases hva : v.active
              · rfl
              · exact absurd hva hv
            simp [this]
          rw [hok]
        · simp only [Bool.not_eq_true] at hflag
          simp [hflag]

/-- C1: whenever some voice is active (as after any `note_on` with
positive velocity), `Synth.render` does not return a buffer at all: the
`apply_algorithm` call inside `Voice.render` raises `TypeError` because
it passes the keyword arguments `freq_ratio` and `op_enabled` that
`apply_algorithm` does not accept. -/
theorem claim_C1 (s : Synth) (h : s.voices.any (fun v => v.active) = true)
    (n : ℕ) :
    s.render n = Except.error applyAlgorithmTypeError := by
  simp only [Synth.render, renderVoices_error_of_active n s.voices h,
    Except.map]

/-- A one-voice synth whose voice is active. -/
noncomputable def activeSynth : Synth :=
  { mkSynth 1 44100 with voices := [activeVoice] }

/-- Witness for C1 at a concrete synth state. -/
theorem claim_C1_witness :
    (activeSynth.voices.any (fun v => v.active)) = true ∧
    activeSynth.render 4 = Except.error applyAlgorithmTypeError :=
  ⟨rfl, claim_C1 activeSynth rfl 4⟩

/-- C3: `Voice.render` does build the per-sample frequency-ratio block as
`pitch_bend_ratio * 2 ^ pitch_mod_i` (the mod-wheel/PMD scaling makes ±1
span ±1 octave), but the algorithm renderer never scales any phase
increment by it: `apply_algorithm` has no `freq_ratio` parameter, so the
render of an active voice raises `TypeError` instead. -/
theorem claim_C3 (bend : ℝ) (pm : List ℝ) (n : ℕ) (hlen : pm.length = n)
    (v : Voice) (hv : v.active = true) (k : ℕ) :
    voiceFreqRatio bend pm n =
      pm.map (fun p => bend * (2 : ℝ) ^ (p : ℝ)) ∧
    Voice.render v k = Except.error applyAlgorithmTypeError := by
  constructor
  · subst n
    unfold voiceFreqRatio
    by_cases h : ∃ x ∈ pm, x ≠ 0
    · simp only [h, if_true]
      induction pm with
      | nil => simp
      | cons x xs ih =>
          simp only [List.length_cons, List.replicate_succ, List.zipWith_cons_cons,
            List.map_cons]
          congr 1
          · have hx : (x * 12 / 12 : ℝ) = x := by field_simp
            rw [hx]
          · by_cases hxs : ∃ y ∈ xs, y ≠ 0
            · exact ih hxs
            · push_neg at hxs
              clear ih h
              induction xs with
              | nil => simp
              | cons y ys ihy =>
                  simp only [List.length_cons, List.replicate_succ,
                    List.zipWith_cons_cons, List.map_cons]
                  congr 1
                  · have hy : y = 0 := hxs y (by simp)
                    have h12 : (y * 12 / 12 : ℝ) = y := by field_simp
                    rw [h12, hy, Real.rpow_zero, mul_one]
                  · exact ihy (fun z hz => hxs z (by simp [hz]))
    · simp only [h, if_false]
      push_neg at h
      induction pm with
      | nil => simp
      | cons x xs ih =>
          simp only [List.length_cons, List.replicate_succ, List.map_cons]
          congr 1
          · have hx : x = 0 := h x (by simp)
            rw [hx, Real.rpow_zero, mul_one]
          · exact ih (fun z hz => h z (by simp [hz]))
  · simp [Voice.render, hv]

/-- Witness for C3 at a concrete pitch-mod block and active voice. -/
theorem claim_C3_witness :
    ([(0 : ℝ), 1].length = 2) ∧
    activeVoice.active = true ∧
    voiceFreqRatio 1 [(0 : ℝ), 1] 2 =
      [(0 : ℝ), 1].map (fun p => 1 * (2 : ℝ) ^ (p : ℝ)) ∧
    Voice.render activeVoice 16 = Except.error applyAlgorithmTypeError :=
  ⟨rfl, rfl, (claim_C3 1 [0, 1] 2 rfl activeVoice rfl 16).1,
   (claim_C3 1 [0, 1] 2 rfl activeVoice rfl 16).2⟩

/-- C10: rendering zero samples returns an empty buffer and leaves the
operator state (phase accumulator, envelope) and the envelope state
(stage, current value, samples remaining) unchanged. -/
theorem claim_C10 (op : Operator) (h0 : 0 ≤ op.phase)
    (h1 : op.phase < 2 * Real.pi) (m : Option (List ℝ)) (c : Bool)
    (fr : Option (List ℝ)) (e : Envelope) :
    op.render 0 m c fr = ([], op) ∧ e.render 0 = ([], e) := by
  constructor
  · have hfm := fmod_eq_self h0 h1
    have henv : op.envelope.render 0 = ([], op.envelope) := rfl
    cases fr with
    | none =>
        cases m with
        | none => simp [Operator.render, hfm, henv]
        | some ml => simp [Operator.render, hfm, henv]
    | some frl =>
        cases m with
        | none => simp [Operator.render, hfm, henv]
        | some ml => simp [Operator.render, hfm, henv]
  · rfl

/-- Witness for C10 at a freshly constructed operator and envelope. -/
theorem claim_C10_witness :
    Operator.render (mkOperator defaultOperatorParams 44100) 0 none true none =
      ([], mkOperator defaultOperatorParams 44100) ∧
    Envelope.render (mkEnvelope (99, 99, 99, 99) (99, 99, 0, 0) 44100) 0 =
      ([], mkEnvelope (99, 99, 99, 99) (99, 99, 0, 0) 44100) := by
  have h1 : (mkOperator defaultOperatorParams 44100).phase < 2 * Real.pi := by
    show (0 : ℝ) < 2 * Real.pi
    positivity
  exact ⟨(claim_C10 _ le_rfl h1 none true none
      (mkEnvelope (99, 99, 99, 99) (99, 99, 0, 0) 44100)).1,
    (claim_C10 (mkOperator defaultOperatorParams 44100) le_rfl h1 none true
      none _).2⟩

/-- `allocStep` never decreases the best released age. -/
theorem allocStep_rel_mono (st : ℤ × ℤ × ℤ × ℤ) (iv : ℕ × Voice) :
    st.2.1 ≤ (allocStep st iv).2.1 := by
  unfold allocStep
  by_cases hg : iv.2.gate = true
  · simp only [hg, Bool.not_true, Bool.false_eq_true, if_false]
    split <;> simp
  · simp only [Bool.not_eq_true] at hg
    simp only [hg, Bool.not_false, if_true]
    split
    · rename_i hage
      exact le_of_lt hage
    · exact le_rfl

/-- `allocStep` never decreases the best held age. -/
theorem allocStep_held_mono (st : ℤ × ℤ × ℤ × ℤ) (iv : ℕ × Voice) :
    st.2.2.2 ≤ (allocStep st iv).2.2.2 := by
  unfold allocStep
  by_cases hg : iv.2.gate = true
  · simp only [hg, Bool.not_true, Bool.false_eq_true, if_false]
    split
    · rename_i hage
      exact le_of_lt hage
    · exact le_rfl
  · simp only [Bool.not_eq_true] at hg
    simp only [hg, Bool.not_false, if_true]
    split <;> simp

/-- A released voice's age is dominated by the best released age after
its own scan step. -/
theorem allocStep_rel_dom (st : ℤ × ℤ × ℤ × ℤ) (iv : ℕ × Voice)
    (hg : iv.2.gate = false) : (iv.2.age : ℤ) ≤ (allocStep st iv).2.1 := by
  unfold allocStep
  simp only [hg, Bool.not_false, if_true]
  split
  · simp
  · rename_i hage
    push_neg at hage
    simpa using hage

/-- A held voice's age is dominated by the best held age after its own
scan step. -/
theorem allocStep_held_dom (st : ℤ × ℤ × ℤ × ℤ) (iv : ℕ × Voice)
    (hg : iv.2.gate = true) : (iv.2.age : ℤ) ≤ (allocStep st iv).2.2.2 := by
  unfold allocStep
  simp only [hg, Bool.not_true, Bool.false_eq_true, if_false]
  split
  · simp
  · rename_i hage
    push_neg at hage
    simpa using hage

/-- The released slot of `allocStep` is either unchanged or set to the
scanned voice, which is then released. -/
theorem allocStep_rel_origin (st : ℤ × ℤ × ℤ × ℤ) (iv : ℕ × Voice) :
    ((allocStep st iv).1 = st.1 ∧ (allocStep st iv).2.1 = st.2.1) ∨
    (iv.2.gate = false ∧ (allocStep st iv).1 = (iv.1 : ℤ) ∧
      (allocStep st iv).2.1 = (iv.2.age : ℤ)) := by
  unfold allocStep
  by_cases hg : iv.2.gate = true
  · simp only [hg, Bool.not_true, Bool.false_eq_true, if_false]
    split <;> simp
  · simp only [Bool.not_eq_true] at hg
    simp only [hg, Bool.not_false, if_true]
    split
    · right; simp [hg]
    · left; simp

/-- The held slot of `allocStep` is either unchanged or set to the
scanned voice, which is then held. -/
theorem allocStep_held_origin (st : ℤ × ℤ × ℤ × ℤ) (iv : ℕ × Voice) :
    ((allocStep st iv).2.2.1 = st.2.2.1 ∧ (allocStep st iv).2.2.2 = st.2.2.2) ∨
    (iv.2.gate = true ∧ (allocStep st iv).2.2.1 = (iv.1 : ℤ) ∧
      (allocStep st iv).2.2.2 = (iv.2.age : ℤ)) := by
  unfold allocStep
  by_cases hg : iv.2.gate = true
  · simp only [hg, Bool.not_true, Bool.false_eq_true, if_false]
    split
    · right; simp [hg]
    · left; simp
  · simp only [Bool.not_eq_true] at hg
    simp only [hg, Bool.not_false, if_true]
    split <;> simp

/-- Specification of the best-released / best-held scan: each best age
only grows, dominates the ages of the matching voices, and each best
slot is either untouched or points at a matching voice. -/
theorem allocFold_spec (dv : Voice) (vs : List Voice) :
    ∀ (k : ℕ) (st : ℤ × ℤ × ℤ × ℤ),
    (st.2.1 ≤ ((List.enumFrom k vs).foldl allocStep st).2.1) ∧
    (∀ j < vs.length, (vs.getD j dv).gate = false →
      ((vs.getD j dv).age : ℤ) ≤ ((List.enumFrom k vs).foldl allocStep st).2.1) ∧
    ((((List.enumFrom k vs).foldl allocStep st).1 = st.1 ∧
      ((List.enumFrom k vs).foldl allocStep st).2.1 = st.2.1) ∨
     (∃ j < vs.length, (vs.getD j dv).gate = false ∧
       ((List.enumFrom k vs).foldl allocStep st).1 = ((k + j : ℕ) : ℤ) ∧
       ((List.enumFrom k vs).foldl allocStep st).2.1 = ((vs.getD j dv).age : ℤ))) ∧
    (st.2.2.2 ≤ ((List.enumFrom k vs).foldl allocStep st).2.2.2) ∧
    (∀ j < vs.length, (vs.getD j dv).gate = true →
      ((vs.getD j dv).age : ℤ) ≤ ((List.enumFrom k vs).foldl allocStep st).2.2.2) ∧
    ((((List.enumFrom k vs).foldl allocStep st).2.2.1 = st.2.2.1 ∧
      ((List.enumFrom k vs).foldl allocStep st).2.2.2 = st.2.2.2) ∨
     (∃ j < vs.length, (vs.getD j dv).gate = true ∧
       ((List.enumFrom k vs).foldl allocStep st).2.2.1 = ((k + j : ℕ) : ℤ) ∧
       ((List.enumFrom k vs).foldl allocStep st).2.2.2 = ((vs.getD j dv).age : ℤ))) := by
  induction vs with
  | nil =>
      intro k st
      simp [List.enumFrom]
  | cons v rest ih =>
      intro k st
      rw [List.enumFrom_cons, List.foldl_cons]
      rcases ih (k + 1) (allocStep st (k, v)) with
        ⟨ih1, ih2, ih3, ih4, ih5, ih6⟩
      refine ⟨le_trans (allocStep_rel_mono st (k, v)) ih1, ?_, ?_,
        le_trans (allocStep_held_mono st (k, v)) ih4, ?_, ?_⟩
      · intro j hj hgate
        cases j with
        | zero =>
            simp only [List.getD_cons_zero] at hgate ⊢
            exact le_trans (allocStep_rel_dom st (k, v) hgate) ih1
        | succ j =>
            simp only [List.getD_cons_succ] at hgate ⊢
            exact ih2 j (by simpa using hj) hgate
      · rcases ih3 with ⟨he1, he2⟩ | ⟨j, hj, hgate, he1, he2⟩
        · rcases allocStep_rel_origin st (k, v) with ⟨hs1, hs2⟩ | ⟨hg, hs1, hs2⟩
          · left
            exact ⟨he1.trans hs1, he2.trans hs2⟩
          · right
            refine ⟨0, by simp, by simpa using hg, ?_, ?_⟩
            · rw [he1, hs1]; simp
            · rw [he2, hs2]; simp
        · right
          refine ⟨j + 1, by simpa using hj, by simpa using hgate, ?_, ?_⟩
          · rw [he1]; push_cast; ring_nf
          · rw [he2]; simp
      · intro j hj hgate
        cases j with
        | zero =>
            simp only [List.getD_cons_zero] at hgate ⊢
            exact le_trans (allocStep_held_dom st (k, v) hgate) ih4
        | succ j =>
            simp only [List.getD_cons_succ] at hgate ⊢
            exact ih5 j (by simpa using hj) hgate
      · rcases ih6 with ⟨he1, he2⟩ | ⟨j, hj, hgate, he1, he2⟩
        · rcases allocStep_held_origin st (k, v) with ⟨hs1, hs2⟩ | ⟨hg, hs1, hs2⟩
          · left
            exact ⟨he1.trans hs1, he2.trans hs2⟩
          · right
            refine ⟨0, by simp, by simpa using hg, ?_, ?_⟩
            · rw [he1, hs1]; simp
            · rw [he2, hs2]; simp
        · right
          refine ⟨j + 1, by simpa using hj, by simpa using hgate, ?_, ?_⟩
          · rw [he1]; push_cast; ring_nf
          · rw [he2]; simp

/-- `getD` at an in-bounds index is the element there. -/
theorem getD_eq_get {α : Type} (l : List α) (d : α) (n : ℕ)
    (h : n < l.length) : l.getD n d = l[n] := by
  simp [List.getD_eq_getElem?_getD, List.getElem?_eq_getElem h]

/-- C4: `note_on` with positive velocity picks its target voice with this
priority (via `_allocate_voice`): first any voice that is not active;
otherwise, among released voices (gate off, still decaying), one of
greatest age; otherwise, among held voices, one of greatest age. -/
theorem claim_C4 (vs : List Voice) (dv : Voice) :
    ((∃ v ∈ vs, v.isActive = false ∧ v.active = false) →
       allocateVoice vs < vs.length ∧
       (vs.getD (allocateVoice vs) dv).isActive = false ∧
       (vs.getD (allocateVoice vs) dv).active = false) ∧
    ((∀ v ∈ vs, v.isActive = true ∨ v.active = true) →
     (∃ v ∈ vs, v.gate = false) →
       allocateVoice vs < vs.length ∧
       (vs.getD (allocateVoice vs) dv).gate = false ∧
       ∀ j < vs.length, (vs.getD j dv).gate = false →
         (vs.getD j dv).age ≤ (vs.getD (allocateVoice vs) dv).age) ∧
    ((∀ v ∈ vs, v.isActive = true ∨ v.active = true) →
     (∀ v ∈ vs, v.gate = true) → vs ≠ [] →
       allocateVoice vs < vs.length ∧
       ∀ j < vs.length, (vs.getD j dv).age ≤
         (vs.getD (allocateVoice vs) dv).age) := by
  refine ⟨?_, ?_, ?_⟩
  · rintro ⟨v, hv, h1, h2⟩
    cases hfi : vs.findIdx? (fun v => !v.isActive && !v.active) with
    | none =>
        rw [List.findIdx?_eq_none_iff] at hfi
        have := hfi v hv
        simp [h1, h2] at this
    | some i =>
        obtain ⟨hi, hpi, -⟩ := List.findIdx?_eq_some_iff_getElem.mp hfi
        have ha : allocateVoice vs = i := by
          unfold allocateVoice
          rw [hfi]
        rw [ha, getD_eq_get vs dv i hi]
        simp only [Bool.and_eq_true, Bool.not_eq_true'] at hpi
        exact ⟨hi, hpi.1, hpi.2⟩
  · intro hall hrel
    have hnone : vs.findIdx? (fun v => !v.isActive && !v.active) = none := by
      rw [List.findIdx?_eq_none_iff]
      intro x hx
      rcases hall x hx with h | h <;> simp [h]
    obtain ⟨s1, s2, s3, s4, s5, s6⟩ :=
      allocFold_spec dv vs 0 ((-1 : ℤ), -1, -1, -1)
    obtain ⟨v, hv, hgv⟩ := hrel
    obtain ⟨j0, hj0, hvj0⟩ := List.getElem_of_mem hv
    have hrelj : (vs.getD j0 dv).gate = false := by
      rw [getD_eq_get _ _ _ hj0, hvj0]
      exact hgv
    have hpos : (0 : ℤ) ≤ ((List.enumFrom 0 vs).foldl allocStep
        ((-1 : ℤ), -1, -1, -1)).2.1 :=
      le_trans (Int.ofNat_nonneg _) (s2 j0 hj0 hrelj)
    rcases s3 with ⟨he1, he2⟩ | ⟨j, hj, hgj, he1, he2⟩
    · rw [he2] at hpos
      norm_num at hpos
    · have hge : ((List.enumFrom 0 vs).foldl allocStep
          ((-1 : ℤ), -1, -1, -1)).1 ≥ 0 := by
        rw [he1]
        exact Int.ofNat_nonneg _
      have ha : allocateVoice vs = j := by
        unfold allocateVoice
        rw [hnone]
        show (if ((List.enumFrom 0 vs).foldl allocStep
              ((-1 : ℤ), -1, -1, -1)).1 ≥ 0 then
            ((List.enumFrom 0 vs).foldl allocStep
              ((-1 : ℤ), -1, -1, -1)).1.toNat
          else if ((List.enumFrom 0 vs).foldl allocStep
              ((-1 : ℤ), -1, -1, -1)).2.2.1 ≥ 0 then
            ((List.enumFrom 0 vs).foldl allocStep
              ((-1 : ℤ), -1, -1, -1)).2.2.1.toNat
          else 0) = j
        rw [if_pos hge, he1]
        simp
      rw [ha]
      refine ⟨hj, hgj, ?_⟩
      intro j2 hj2 hg2
      have := s2 j2 hj2 hg2
      rw [he2] at this
      exact_mod_cast this
  · intro hall hheld hne
    have hnone : vs.findIdx? (fun v => !v.isActive && !v.active) = none := by
      rw [List.findIdx?_eq_none_iff]
      intro x hx
      rcases hall x hx with h | h <;> simp [h]
    obtain ⟨s1, s2, s3, s4, s5, s6⟩ :=
      allocFold_spec dv vs 0 ((-1 : ℤ), -1, -1, -1)
    have hlen : 0 < vs.length := List.length_pos.mpr hne
    have hg0 : (vs.getD 0 dv).gate = true := by
      rw [getD_eq_get _ _ _ hlen]
      exact hheld _ (List.getElem_mem hlen)
    have hpos : (0 : ℤ) ≤ ((List.enumFrom 0 vs).foldl allocStep
        ((-1 : ℤ), -1, -1, -1)).2.2.2 :=
      le_trans (Int.ofNat_nonneg _) (s5 0 hlen hg0)
    have hrelneg : ¬ (((List.enumFrom 0 vs).foldl allocStep
        ((-1 : ℤ), -1, -1, -1)).1 ≥ 0) := by
      rcases s3 with ⟨he1, he2⟩ | ⟨j, hj, hgj, he1, he2⟩
      · rw [he1]
        norm_num
      · exfalso
        have : (vs.getD j dv).gate = true := by
          rw [getD_eq_get _ _ _ hj]
          exact hheld _ (List.getElem_mem hj)
        rw [this] at hgj
        cases hgj
    rcases s6 with ⟨he1, he2⟩ | ⟨j, hj, hgj, he1, he2⟩
    · rw [he2] at hpos
      norm_num at hpos
    · have hge : ((List.enumFrom 0 vs).foldl allocStep
          ((-1 : ℤ), -1, -1, -1)).2.2.1 ≥ 0 := by
        rw [he1]
        exact Int.ofNat_nonneg _
      have ha : allocateVoice vs = j := by
        unfold allocateVoice
        rw [hnone]
        show (if ((List.enumFrom 0 vs).foldl allocStep
              ((-1 : ℤ), -1, -1, -1)).1 ≥ 0 then
            ((List.enumFrom 0 vs).foldl allocStep
              ((-1 : ℤ), -1, -1, -1)).1.toNat
          else if ((List.enumFrom 0 vs).foldl allocStep
              ((-1 : ℤ), -1, -1, -1)).2.2.1 ≥ 0 then
            ((List.enumFrom 0 vs).foldl allocStep
              ((-1 : ℤ), -1, -1, -1)).2.2.1.toNat
          else 0) = j
        rw [if_neg hrelneg, if_pos hge, he1]
        simp
      rw [ha]
      refine ⟨hj, ?_⟩
      intro j2 hj2
      have hg2 : (vs.getD j2 dv).gate = true := by
        rw [getD_eq_get _ _ _ hj2]
        exact hheld _ (List.getElem_mem hj2)
      have := s5 j2 hj2 hg2
      rw [he2] at this
      exact_mod_cast this

/-- Witness pool for C4: one held voice and one idle voice. -/
noncomputable def mixedPool : List Voice :=
  [{ mkVoice 44100 with gate := true, active := true, age := 3 },
   mkVoice 44100]

/-- Witness for C4: with an idle voice present, the allocator picks a
voice that is not active. -/
theorem claim_C4_witness :
    (∃ v ∈ mixedPool, v.isActive = false ∧ v.active = false) ∧
    (allocateVoice mixedPool < mixedPool.length ∧
     (mixedPool.getD (allocateVoice mixedPool) (mkVoice 44100)).isActive
       = false ∧
     (mixedPool.getD (allocateVoice mixedPool) (mkVoice 44100)).active
       = false) := by
  have hex : ∃ v ∈ mixedPool, v.isActive = false ∧ v.active = false := by
    refine ⟨mkVoice 44100, ?_, rfl, rfl⟩
    show mkVoice 44100 ∈ mixedPool
    simp [mixedPool]
  exact ⟨hex, (claim_C4 mixedPool (mkVoice 44100)).1 hex⟩

/-! ### Silent-pool development for C7 -/

/-- A voice left by `Voice.reset`: inactive, released, every operator
envelope idle. -/
def SilentVoice (v : Voice) : Prop :=
  v.active = false ∧ v.gate = false ∧
  ∀ i : Fin 6, (v.operators i).envelope.stage = EnvStage.idle

/-- All voices of the pool are silent. -/
def SilentPool (s : Synth) : Prop := ∀ v ∈ s.voices, SilentVoice v

/-- A silent voice reports inactive. -/
theorem silentVoice_isActive_false {v : Voice} (h : SilentVoice v) :
    v.isActive = false := by
  rcases h with ⟨_, hg, hop⟩
  unfold Voice.isActive
  simp only [hg, Bool.false_eq_true, if_false]
  rw [List.any_eq_false]
  intro c _
  simp [Operator.isActive, hop (opFin c)]

/-- `Voice.reset` leaves a silent voice. -/
theorem silentVoice_reset (v : Voice) : SilentVoice v.reset :=
  ⟨rfl, rfl, fun _ => rfl⟩

/-- `Voice.gate_off` preserves silence: releasing an idle envelope is a
no-op. -/
theorem silentVoice_gateOff {v : Voice} (h : SilentVoice v) :
    SilentVoice v.gateOff := by
  rcases h with ⟨ha, hg, hop⟩
  refine ⟨ha, rfl, ?_⟩
  intro i
  show ((v.operators i).gateOff).envelope.stage = EnvStage.idle
  simp [Operator.gateOff, Envelope.gateOff, hop i]

/-- `Voice.load_preset` preserves silence: fresh operators start idle. -/
theorem silentVoice_loadPreset {v : Voice} (h : SilentVoice v) (p : Preset) :
    SilentVoice (v.loadPreset p) :=
  ⟨h.1, h.2.1, fun _ => rfl⟩

/-- The controller setters preserve silence. -/
theorem silentVoice_setters {v : Voice} (h : SilentVoice v) (r w : ℝ)
    (i : ℕ) (b : Bool) :
    SilentVoice (v.setPitchBend r) ∧ SilentVoice (v.setModWheel w) ∧
    SilentVoice (v.setOperatorEnabled i b) := by
  refine ⟨⟨h.1, h.2.1, h.2.2⟩, ⟨h.1, h.2.1, h.2.2⟩, ?_⟩
  unfold Voice.setOperatorEnabled
  split
  · exact ⟨h.1, h.2.1, h.2.2⟩
  · exact h

/-- Members of `listModify l i f` come from `l`, possibly through `f`. -/
theorem listModify_forall {α : Type} (P : α → Prop) :
    ∀ (l : List α) (i : ℕ) (f : α → α),
      (∀ a ∈ l, P a) → (∀ a ∈ l, P (f a)) →
      ∀ a ∈ listModify l i f, P a := by
  intro l
  induction l with
  | nil => intro i f _ _ a ha; cases ha
  | cons x xs ih =>
      intro i f hl hf a ha
      cases i with
      | zero =>
          rcases List.mem_cons.mp ha with rfl | hmem
          · exact hf x (by simp)
          · exact hl a (List.mem_cons_of_mem x hmem)
      | succ i =>
          rcases List.mem_cons.mp ha with rfl | hmem
          · exact hl a (by simp)
          · exact ih i f (fun b hb => hl b (List.mem_cons_of_mem x hb))
              (fun b hb => hf b (List.mem_cons_of_mem x hb)) a hmem

/-- `Synth.panic` leaves a silent pool. -/
theorem silentPool_panic (s : Synth) : SilentPool s.panic := by
  intro v hv
  obtain ⟨w, _, rfl⟩ := List.mem_map.mp hv
  exact silentVoice_reset w

/-- Every event other than `note_on` preserves a silent pool. -/
theorem silentPool_applyEvent {s : Synth} (h : SilentPool s) (e : Event)
    (hne : (Action.event e).isNoteOn = false) :
    SilentPool (applyEvent s e) := by
  cases e with
  | noteOn note velocity => cases hne
  | noteOff note =>
      show SilentPool (s.noteOff note)
      unfold Synth.noteOff
      cases hl : lookupNote s.noteToVoice note with
      | none => exact h
      | some idx =>
          intro v hv
          exact listModify_forall SilentVoice s.voices idx Voice.gateOff h
            (fun a ha => silentVoice_gateOff (h a ha)) v hv
  | allNotesOff =>
      show SilentPool s.allNotesOff
      intro v hv
      obtain ⟨w, hw, rfl⟩ := List.mem_map.mp hv
      exact silentVoice_gateOff (h w hw)
  | panic => exact silentPool_panic s
  | pitchBend r =>
      show SilentPool { s with
        voices := s.voices.map (fun v => v.setPitchBend r) }
      intro v hv
      obtain ⟨w, hw, rfl⟩ := List.mem_map.mp hv
      exact (silentVoice_setters (h w hw) r 0 0 true).1
  | modWheel w0 =>
      show SilentPool { s with
        voices := s.voices.map (fun v => v.setModWheel w0) }
      intro v hv
      obtain ⟨w, hw, rfl⟩ := List.mem_map.mp hv
      exact (silentVoice_setters (h w hw) 0 w0 0 true).2.1
  | opEnable i b =>
      show SilentPool { s with
        voices := s.voices.map (fun v => v.setOperatorEnabled i b) }
      intro v hv
      obtain ⟨w, hw, rfl⟩ := List.mem_map.mp hv
      exact (silentVoice_setters (h w hw) 0 0 i b).2.2
  | loadPreset p =>
      show SilentPool (s.loadPreset p)
      intro v hv
      obtain ⟨w, hw, rfl⟩ := List.mem_map.mp hv
      exact silentVoice_loadPreset (h w hw) p

/-- Rendering a silent pool produces the zero mix and leaves every voice
untouched. -/
theorem renderVoices_silent (n : ℕ) :
    ∀ vs : List Voice, (∀ v ∈ vs, SilentVoice v) →
      renderVoices n vs = Except.ok (List.replicate n 0, vs) := by
  intro vs
  induction vs with
  | nil => intro _; rfl
  | cons v rest ih =>
      intro h
      have hv := h v (by simp)
      have hflag : (v.isActive || v.active) = false := by
        rw [silentVoice_isActive_false hv, hv.1]
        rfl
      simp only [renderVoices, hflag, Bool.false_eq_true, if_false]
      rw [ih (fun w hw => h w (List.mem_cons_of_mem v hw))]

/-- `Synth.render` on a silent pool returns exactly zero samples and
leaves the state unchanged. -/
theorem synthRender_silent {s : Synth} (h : SilentPool s) (n : ℕ) :
    s.render n = Except.ok (List.replicate n 0, s) := by
  unfold Synth.render
  rw [renderVoices_silent n s.voices h]
  have hclip : clipR ((0 : ℝ)) (-1) 1 = 0 := by
    unfold clipR
    norm_num
  simp [Except.map, hclip]

/-- A `note_on`-free action preserves a silent pool. -/
theorem silentPool_runAction {s : Synth} (h : SilentPool s) (a : Action)
    (hno : a.isNoteOn = false) : SilentPool (runAction s a) := by
  cases a with
  | event e => exact silentPool_applyEvent h e hno
  | render n =>
      show SilentPool (match s.render n with
        | Except.ok r => r.2
        | Except.error _ => s)
      rw [synthRender_silent h n]
      exact h

/-- A `note_on`-free action sequence preserves a silent pool. -/
theorem silentPool_runActions {s : Synth} (h : SilentPool s) :
    ∀ acts : List Action, (∀ a ∈ acts, a.isNoteOn = false) →
      SilentPool (runActions s acts) := by
  intro acts
  induction acts generalizing s with
  | nil => intro _; exact h
  | cons a rest ih =>
      intro hall
      show SilentPool (runActions (runAction s a) rest)
      exact ih (silentPool_runAction h a (hall a (by simp)))
        (fun b hb => hall b (List.mem_cons_of_mem a hb))

/-- C7: after `panic()`, every subsequent `render(n)` returns exactly n
zero samples, across any interleaving of renders and non-`note_on`
events, until the next `note_on`. -/
theorem claim_C7 (s : Synth) (acts : List Action) (n : ℕ)
    (h : ∀ a ∈ acts, a.isNoteOn = false) :
    Synth.render (runActions s.panic acts) n =
      Except.ok (List.replicate n 0, runActions s.panic acts) :=
  synthRender_silent (silentPool_runActions (silentPool_panic s) acts h) n

/-- A concrete `note_on`-free action trace. -/
def quietTrace : List Action :=
  [Action.event Event.allNotesOff, Action.render 7,
   Action.event (Event.noteOff 60)]

/-- Witness for C7 on a concrete synth and trace. -/
theorem claim_C7_witness :
    (∀ a ∈ quietTrace, a.isNoteOn = false) ∧
    Synth.render (runActions (mkSynth 2 44100).panic quietTrace) 3 =
      Except.ok (List.replicate 3 0,
        runActions (mkSynth 2 44100).panic quietTrace) :=
  ⟨by decide, claim_C7 (mkSynth 2 44100) quietTrace 3 (by decide)⟩

/-! ### Release-phase development for C5 -/

/-- `clipR` is monotone in its argument. -/
theorem clipR_mono {x y lo hi : ℝ} (h : x ≤ y) :
    clipR x lo hi ≤ clipR y lo hi :=
  max_le_max le_rfl (min_le_min h le_rfl)

/-- `clipR` is the identity inside the clipping interval. -/
theorem clipR_eq_self {x lo hi : ℝ} (h0 : lo ≤ x) (h1 : x ≤ hi) :
    clipR x lo hi = x := by
  unfold clipR
  rw [min_eq_left h1, max_eq_right h0]

/-- The ramp written by `_fill_ramp` is non-increasing when the
increment is non-positive. -/
theorem rampList_chain (c i : ℝ) (m : ℕ) (hi : i ≤ 0) :
    List.Chain' (fun a b => b ≤ a) (rampList c i m) := by
  unfold rampList
  cases m with
  | zero => simp
  | succ m =>
      have hchain : List.Chain' (fun a b : ℕ =>
          clipR (c + i * ((b : ℝ) + 1)) 0 1 ≤
            clipR (c + i * ((a : ℝ) + 1)) 0 1)
          (List.range (m + 1)) := by
        rw [List.chain'_range_succ]
        intro j _
        apply clipR_mono
        have hstep : i * ((j : ℝ) + 1 + 1) ≤ i * ((j : ℝ) + 1) := by
          nlinarith
        push_cast
        linarith
      exact List.chain'_map_of_chain'
        (fun j : ℕ => clipR (c + i * ((j : ℝ) + 1)) 0 1)
        (fun a b h => h) hchain

/-- Elements of the ramp list, described explicitly. -/
theorem rampList_mem {c i : ℝ} {m : ℕ} {x : ℝ} (hx : x ∈ rampList c i m) :
    ∃ j : ℕ, j + 1 ≤ m ∧ x = clipR (c + i * ((j : ℝ) + 1)) 0 1 := by
  unfold rampList at hx
  obtain ⟨j, hj, rfl⟩ := List.mem_map.mp hx
  exact ⟨j, List.mem_range.mp hj, rfl⟩

/-- The render loop with zero samples requested returns immediately. -/
theorem renderLoop_zero (f : ℕ) (e : Envelope) :
    Envelope.renderLoop (f + 1) e 0 = ([], e) := rfl

/-- The render loop on an idle envelope fills the block with the held
current value and stops. -/
theorem renderLoop_idle (f : ℕ) (e : Envelope) (m : ℕ)
    (hst : e.stage = EnvStage.idle) :
    Envelope.renderLoop (f + 1) e m = (List.replicate m e.current, e) := by
  obtain ⟨rates, levels, amps, l4, sr, stage, cur, tgt, inc, rem⟩ := e
  simp only at hst
  subst hst
  cases m with
  | zero => rfl
  | succ m => rfl

/-- One release-stage run of the render loop: the output is the
remaining ramp followed by a hold at the target, and the envelope ends
either still releasing or idle at the target. -/
theorem renderLoop_release (f : ℕ) (e : Envelope) (remaining : ℕ)
    (hst : e.stage = EnvStage.release) :
    (Envelope.renderLoop (f + 3) e remaining).1 =
      rampList e.current e.increment (min remaining e.samplesRemaining) ++
        List.replicate (remaining - e.samplesRemaining) e.target ∧
    ((Envelope.renderLoop (f + 3) e remaining).2.stage = EnvStage.release ∨
     ((Envelope.renderLoop (f + 3) e remaining).2.stage = EnvStage.idle ∧
      (Envelope.renderLoop (f + 3) e remaining).2.current = e.target)) := by
  obtain ⟨rates, levels, amps, l4, sr, stage, cur, tgt, inc, rem⟩ := e
  simp only at hst
  subst hst
  cases remaining with
  | zero =>
      have h0 : Envelope.renderLoop (f + 3)
          ⟨rates, levels, amps, l4, sr, EnvStage.release, cur, tgt, inc, rem⟩
          0 = ([], ⟨rates, levels, amps, l4, sr, EnvStage.release, cur, tgt,
            inc, rem⟩) := rfl
      rw [h0]
      refine ⟨?_, Or.inl rfl⟩
      simp [rampList]
  | succ r =>
      cases rem with
      | zero =>
          have h1 : Envelope.renderLoop (f + 3)
              ⟨rates, levels, amps, l4, sr, EnvStage.release, cur, tgt, inc, 0⟩
              (r + 1) =
              Envelope.renderLoop (f + 2)
                ⟨rates, levels, amps, l4, sr, EnvStage.idle, tgt, tgt, inc, 0⟩
                (r + 1) := rfl
          rw [h1, renderLoop_idle (f + 1) _ (r + 1) rfl]
          constructor
          · simp [rampList]
          · right
            exact ⟨rfl, rfl⟩
      | succ k =>
          have hstep : Envelope.renderLoop (f + 3)
              ⟨rates, levels, amps, l4, sr, EnvStage.release, cur, tgt, inc,
                k + 1⟩ (r + 1) =
              (rampList cur inc (min (r + 1) (k + 1)) ++
                (Envelope.renderLoop (f + 2)
                  (if (k + 1) - min (r + 1) (k + 1) = 0 then
                    ⟨rates, levels, amps, l4, sr, EnvStage.idle, tgt, tgt,
                      inc, (k + 1) - min (r + 1) (k + 1)⟩
                  else
                    ⟨rates, levels, amps, l4, sr, EnvStage.release,
                      (rampList cur inc (min (r + 1) (k + 1))).getLastD cur,
                      tgt, inc, (k + 1) - min (r + 1) (k + 1)⟩)
                  ((r + 1) - min (r + 1) (k + 1))).1,
               (Envelope.renderLoop (f + 2)
                  (if (k + 1) - min (r + 1) (k + 1) = 0 then
                    ⟨rates, levels, amps, l4, sr, EnvStage.idle, tgt, tgt,
                      inc, (k + 1) - min (r + 1) (k + 1)⟩
                  else
                    ⟨rates, levels, amps, l4, sr, EnvStage.release,
                      (rampList cur inc (min (r + 1) (k + 1))).getLastD cur,
                      tgt, inc, (k + 1) - min (r + 1) (k + 1)⟩)
                  ((r + 1) - min (r + 1) (k + 1))).2) := by
            show Envelope.renderLoop (f + 2 + 1) _ (r + 1) = _
            simp only [Envelope.renderLoop, Envelope.fillRamp,
              Nat.add_one_ne_zero, if_false]
            by_cases hz : (k + 1) - min (r + 1) (k + 1) = 0
            · rw [if_pos hz, if_pos hz] <;> rfl
            · rw [if_neg hz, if_neg hz] <;> rfl
          rw [hstep]
          rcases le_or_lt (r + 1) (k + 1) with hle | hlt
          · have hmin : min (r + 1) (k + 1) = r + 1 := min_eq_left hle
            rw [hmin]
            have hrr : r + 1 - (r + 1) = 0 := by omega
            rw [hrr]
            have hrepl : r + 1 - (k + 1) = 0 := by omega
            rw [hrepl]
            by_cases heq : k + 1 - (r + 1) = 0
            · rw [if_pos heq, renderLoop_zero (f + 1)]
              exact ⟨by simp, Or.inr ⟨rfl, rfl⟩⟩
            · rw [if_neg heq, renderLoop_zero (f + 1)]
              exact ⟨by simp, Or.inl rfl⟩
          · have hmin : min (r + 1) (k + 1) = k + 1 :=
              min_eq_right (le_of_lt hlt)
            rw [hmin]
            have hkz : k + 1 - (k + 1) = 0 := by omega
            rw [hkz]
            rw [if_pos rfl]
            rw [renderLoop_idle (f + 1) _ _ rfl]
            exact ⟨rfl, Or.inr ⟨rfl, rfl⟩⟩

/-- `gate_off` on a non-idle envelope enters the release stage. -/
theorem gateOff_release (e : Envelope) (hstage : e.stage ≠ EnvStage.idle) :
    e.gateOff = e.enterStage EnvStage.release := by
  unfold Envelope.gateOff
  rw [if_neg hstage]

/-- What `_enter_stage(RELEASE)` sets up: the target is L4's amplitude,
and either the envelope snapped to the target (tiny delta) or it keeps
its current value with the DX7 sample budget and the exact linear
increment. -/
theorem enterStage_release_spec (e : Envelope) :
    (e.enterStage EnvStage.release).stage = EnvStage.release ∧
    (e.enterStage EnvStage.release).target = e.l4Amp ∧
    ((|e.l4Amp - e.current| < 1e-9 ∧
      (e.enterStage EnvStage.release).current = e.l4Amp ∧
      (e.enterStage EnvStage.release).increment = 0 ∧
      (e.enterStage EnvStage.release).samplesRemaining = 0) ∨
     (¬ (|e.l4Amp - e.current| < 1e-9) ∧
      (e.enterStage EnvStage.release).current = e.current ∧
      (e.enterStage EnvStage.release).samplesRemaining =
        (max 1 (roundEven (max
          (rateToTime e.rates.2.2.2 * |e.l4Amp - e.current|)
          (1 / ((e.sampleRate : ℕ) : ℝ)) * ((e.sampleRate : ℕ) : ℝ))).toNat) ∧
      (e.enterStage EnvStage.release).increment =
        (e.l4Amp - e.current) /
          (((e.enterStage EnvStage.release).samplesRemaining : ℕ) : ℝ))) := by
  by_cases h : |e.l4Amp - e.current| < 1e-9
  · refine ⟨?_, ?_, Or.inl ⟨h, ?_, ?_, ?_⟩⟩ <;>
      simp [Envelope.enterStage, h]
  · refine ⟨?_, ?_, Or.inr ⟨h, ?_, ?_, ?_⟩⟩ <;>
      simp [Envelope.enterStage, h, le_max_left]

/-- C5 amended: after `gate_off`, when the release starting value is at
least L4's amplitude (with well-formed amplitudes), the rendered
envelope values are monotonically non-increasing, all between L4's
amplitude and the starting value, and the envelope either keeps
releasing or ends idle holding exactly L4's amplitude. -/
theorem claim_C5_amended (e : Envelope) (hstage : e.stage ≠ EnvStage.idle)
    (hl0 : 0 ≤ e.l4Amp) (hl1 : e.l4Amp ≤ 1)
    (hc0 : 0 ≤ e.current) (hc1 : e.current ≤ 1)
    (hge : e.l4Amp ≤ e.current) (n : ℕ) :
    List.Chain' (fun a b => b ≤ a) ((e.gateOff.render n).1) ∧
    (∀ x ∈ (e.gateOff.render n).1, e.l4Amp ≤ x ∧ x ≤ e.current) ∧
    ((e.gateOff.render n).2.stage = EnvStage.release ∨
     ((e.gateOff.render n).2.stage = EnvStage.idle ∧
      (e.gateOff.render n).2.current = e.l4Amp)) := by
  rw [gateOff_release e hstage]
  obtain ⟨hs, ht, hcase⟩ := enterStage_release_spec e
  have hrender : (e.enterStage EnvStage.release).render n =
      Envelope.renderLoop (3 * n + 5 + 3) (e.enterStage EnvStage.release) n := by
    have harith : 3 * n + 8 = 3 * n + 5 + 3 := by omega
    unfold Envelope.render
    rw [harith]
  rw [hrender]
  obtain ⟨hout, hstate⟩ :=
    renderLoop_release (3 * n + 5) (e.enterStage EnvStage.release) n hs
  rcases hcase with ⟨hdel, hcur, hinc, hrem⟩ | ⟨hdel, hcur, hremf, hinc⟩
  · rw [hout, hcur, hinc, hrem, ht]
    refine ⟨?_, ?_, ?_⟩
    · simp only [Nat.min_zero, rampList, List.range_zero, List.map_nil,
        List.nil_append]
      exact List.chain'_replicate_of_rel _ le_rfl
    · intro x hx
      simp only [Nat.min_zero, rampList, List.range_zero, List.map_nil,
        List.nil_append] at hx
      have := List.eq_of_mem_replicate hx
      subst this
      exact ⟨le_rfl, hge⟩
    · rcases hstate with h | ⟨h1, h2⟩
      · exact Or.inl h
      · exact Or.inr ⟨h1, by rw [h2, ht]⟩
  · have hrem : 1 ≤ (e.enterStage EnvStage.release).samplesRemaining := by
      rw [hremf]
      exact le_max_left 1 _
    have hN1 : 1 ≤ (e.enterStage EnvStage.release).samplesRemaining := hrem
    have hNne : (((e.enterStage EnvStage.release).samplesRemaining : ℕ) : ℝ)
        ≠ 0 := Nat.cast_ne_zero.mpr (by omega)
    have hincle : (e.enterStage EnvStage.release).increment ≤ 0 := by
      rw [hinc]
      apply div_nonpos_of_nonpos_of_nonneg
      · linarith
      · positivity
    have hexact : (e.enterStage EnvStage.release).increment *
        (((e.enterStage EnvStage.release).samplesRemaining : ℕ) : ℝ) =
        e.l4Amp - e.current := by
      rw [hinc]
      field_simp
    have hvalbounds : ∀ j : ℕ, j + 1 ≤
        (e.enterStage EnvStage.release).samplesRemaining →
        e.l4Amp ≤ e.current +
          (e.enterStage EnvStage.release).increment * ((j : ℝ) + 1) ∧
        e.current + (e.enterStage EnvStage.release).increment *
          ((j : ℝ) + 1) ≤ e.current := by
      intro j hj
      constructor
      · have hcast : ((j : ℝ) + 1) ≤
            (((e.enterStage EnvStage.release).samplesRemaining : ℕ) : ℝ) := by
          exact_mod_cast hj
        have := mul_le_mul_of_nonpos_left hcast hincle
        nlinarith [hexact]
      · nlinarith [hincle, (by positivity : (0 : ℝ) ≤ (j : ℝ) + 1)]
    have hclipid : ∀ j : ℕ, j + 1 ≤
        (e.enterStage EnvStage.release).samplesRemaining →
        clipR (e.current + (e.enterStage EnvStage.release).increment *
          ((j : ℝ) + 1)) 0 1 =
        e.current + (e.enterStage EnvStage.release).increment *
          ((j : ℝ) + 1) := by
      intro j hj
      obtain ⟨hlo, hhi⟩ := hvalbounds j hj
      exact clipR_eq_self (by linarith) (by linarith)
    have hmemramp : ∀ x ∈ rampList e.current
        (e.enterStage EnvStage.release).increment
        (min n (e.enterStage EnvStage.release).samplesRemaining),
        e.l4Amp ≤ x ∧ x ≤ e.current := by
      intro x hx
      obtain ⟨j, hj, hxe⟩ := rampList_mem hx
      have hjN : j + 1 ≤ (e.enterStage EnvStage.release).samplesRemaining := by
        have := min_le_right n (e.enterStage EnvStage.release).samplesRemaining
        omega
      rw [hxe, hclipid j hjN]
      exact hvalbounds j hjN
    rw [hout, ht, hcur]
    refine ⟨?_, ?_, ?_⟩
    · apply List.Chain'.append
      · exact rampList_chain _ _ _ hincle
      · exact List.chain'_replicate_of_rel _ le_rfl
      · intro x hx y hy
        have hxmem := List.mem_of_mem_getLast? hx
        have hymem := List.mem_of_mem_head? hy
        have hyeq := List.eq_of_mem_replicate hymem
        subst hyeq
        exact (hmemramp x hxmem).1
    · intro x hx
      rcases List.mem_append.mp hx with hxr | hxrep
      · exact hmemramp x hxr
      · have := List.eq_of_mem_replicate hxrep
        subst this
        exact ⟨le_rfl, hge⟩
    · rcases hstate with h | ⟨h1, h2⟩
      · exact Or.inl h
      · exact Or.inr ⟨h1, by rw [h2, ht]⟩

/-- Witness envelope for C5: mid-attack at value 1/2 with L4 = 0. -/
noncomputable def relEnv : Envelope :=
  { mkEnvelope (99, 99, 99, 99) (50, 99, 99, 0) 44100 with
    stage := EnvStage.attack, current := 1 / 2 }

/-- Witness for C5: the release from 1/2 down to L4 = 0 renders a
non-increasing block. -/
theorem claim_C5_witness :
    relEnv.stage ≠ EnvStage.idle ∧
    List.Chain' (fun a b => b ≤ a) ((relEnv.gateOff.render 4).1) := by
  have hl4 : relEnv.l4Amp = 0 := by
    show levelToAmplitude (clipZ 0 0 99) = 0
    norm_num [clipZ, levelToAmplitude]
  have hst : relEnv.stage ≠ EnvStage.idle := by decide
  refine ⟨hst, ?_⟩
  have h := claim_C5_amended relEnv hst (by rw [hl4]) (by rw [hl4]; norm_num)
    (by show (0 : ℝ) ≤ 1 / 2; norm_num) (by show (1 : ℝ) / 2 ≤ 1; norm_num)
    (by rw [hl4]; show (0 : ℝ) ≤ 1 / 2; norm_num) 4
  exact h.1

/-- Counterexample envelope for C5: mid-attack at value 1/2 with
L1 = 0 and L4 = 99 (so the release target amplitude is 1, above the
starting value).  The runtime fields are those reached by `gate_on`
followed by rendering 11 attack samples at 44100 Hz. -/
noncomputable def ceEnv : Envelope :=
  { mkEnvelope (99, 99, 99, 99) (0, 99, 99, 99) 44100 with
    stage := EnvStage.attack, current := 1 / 2, target := 0,
    increment := -(1 / 22), samplesRemaining := 11 }

/-- C5 counterexample: after `gate_off` on this non-idle envelope the
two rendered samples strictly increase (1/2 + 1/22, then 1/2 + 2/22),
so the rendered values do not monotonically decrease. -/
theorem claim_C5_counterexample :
    ceEnv.stage ≠ EnvStage.idle ∧
    ¬ List.Chain' (fun a b => b ≤ a) ((ceEnv.gateOff.render 2).1) := by
  have hstne : ceEnv.stage ≠ EnvStage.idle := by decide
  refine ⟨hstne, ?_⟩
  have hl4 : ceEnv.l4Amp = 1 := by
    show levelToAmplitude (clipZ 99 0 99) = 1
    norm_num [clipZ, levelToAmplitude]
  have hcur : ceEnv.current = 1 / 2 := rfl
  have hrate : ceEnv.rates.2.2.2 = 99 := by
    show clipZ 99 0 99 = 99
    norm_num [clipZ]
  have hsr : ceEnv.sampleRate = 44100 := rfl
  have habs : |ceEnv.l4Amp - ceEnv.current| = 1 / 2 := by
    rw [hl4, hcur, show (1 : ℝ) - 1 / 2 = 1 / 2 by norm_num]
    exact abs_of_pos (by norm_num)
  have hfl : ⌊(11.025 : ℝ)⌋ = 11 := by
    rw [Int.floor_eq_iff]
    norm_num
  have hround : roundEven (11.025 : ℝ) = 11 := by
    unfold roundEven
    rw [if_neg]
    · rw [round_eq]
      have h2 : (11.025 : ℝ) + 1 / 2 = 11.525 := by norm_num
      rw [h2, Int.floor_eq_iff]
      norm_num
    · rw [Int.fract]
      rw [hfl]
      norm_num
  obtain ⟨hs, ht, hcase⟩ := enterStage_release_spec ceEnv
  rcases hcase with ⟨hd, -, -, -⟩ | ⟨-, hcur2, hremf, hinc⟩
  · rw [habs] at hd
    norm_num at hd
  · have hrem11 : (ceEnv.enterStage EnvStage.release).samplesRemaining
        = 11 := by
      rw [hremf, hrate, habs, hsr]
      have hrt : rateToTime 99 = 0.0005 := by
        norm_num [rateToTime, clipZ]
      rw [hrt]
      have hside : (1 : ℝ) / ((44100 : ℕ) : ℝ) ≤ (0.0005 : ℝ) * (1 / 2) := by
        rw [div_le_iff₀ (by norm_num : (0 : ℝ) < ((44100 : ℕ) : ℝ))]
        norm_num
      have hmax : max ((0.0005 : ℝ) * (1 / 2)) (1 / ((44100 : ℕ) : ℝ)) =
          0.00025 := by
        rw [max_eq_left hside]
        norm_num
      rw [hmax]
      have h11 : (0.00025 : ℝ) * ((44100 : ℕ) : ℝ) = 11.025 := by
        norm_num
      rw [h11, hround]
      rfl
    have hinc22 : (ceEnv.enterStage EnvStage.release).increment = 1 / 22 := by
      rw [hinc, hrem11, hl4, hcur]
      norm_num
    have hrl : (ceEnv.gateOff.render 2).1 = rampList (1 / 2) (1 / 22) 2 := by
      rw [gateOff_release ceEnv hstne]
      have hrender : (ceEnv.enterStage EnvStage.release).render 2 =
          Envelope.renderLoop (11 + 3)
            (ceEnv.enterStage EnvStage.release) 2 := rfl
      rw [hrender]
      obtain ⟨hout, -⟩ :=
        renderLoop_release 11 (ceEnv.enterStage EnvStage.release) 2 hs
      rw [hout, hcur2, hcur, hinc22, hrem11]
      norm_num
    rw [hrl]
    have hramp : rampList (1 / 2) (1 / 22) 2 =
        [clipR (1 / 2 + 1 / 22 * (0 + 1)) 0 1,
         clipR (1 / 2 + 1 / 22 * (1 + 1)) 0 1] := by
      unfold rampList
      rw [show (2 : ℕ) = 1 + 1 by rfl, List.range_succ, List.range_succ,
        List.range_zero]
      simp
    rw [hramp]
    have hc1 : clipR (1 / 2 + 1 / 22 * ((0 : ℝ) + 1)) 0 1 = 6 / 11 := by
      rw [clipR_eq_self (by norm_num) (by norm_num)]
      norm_num
    have hc2 : clipR (1 / 2 + 1 / 22 * ((1 : ℝ) + 1)) 0 1 = 13 / 22 := by
      rw [clipR_eq_self (by norm_num) (by norm_num)]
      norm_num
    intro hchain
    rw [List.chain'_cons] at hchain
    have hle := hchain.1
    rw [hc1, hc2] at hle
    norm_num at hle

end VX7
